import Mathlib

/-!
Verification of the node-mysql-orm repository against its specification.

The development shallowly embeds the JavaScript sources:

* JavaScript scalar values (numbers, strings, booleans, null) are the
  inductive `Scalar`; a JavaScript value stored in a row or criteria object
  is a `JValue` (a scalar, or a plain object used as foreign-key lookup
  criteria — the library only supports single-level dereferencing, so
  criteria values are scalars).
* JavaScript objects are association lists `List (String × _)` in property
  insertion order, with first-occurrence lookup semantics.
* `mysql.escape` / `mysql.escapeId` from the `mysql` driver are modelled by
  `escape` / `escapeId`; `mysql.format` calls are modelled by substituting
  `??`/`?` placeholders with `escapeId`/`escape` of the positional
  arguments, which is that function's documented behaviour.
* callback-style fallible functions become `Except`-valued functions.
-/

namespace MysqlOrm

/-- A JavaScript scalar value as used by the ORM (row/criteria values). -/
inductive Scalar
  | num  : Int → Scalar
  | str  : String → Scalar
  | bool : Bool → Scalar
  | null : Scalar
deriving DecidableEq

/-- A value stored in a row or criteria object: either a scalar, or a plain
object (which the foreign-key resolver treats as lookup criteria).  Criteria
objects map column names to scalars. -/
inductive JValue
  | scalar : Scalar → JValue
  | obj    : List (String × Scalar) → JValue
deriving DecidableEq

/-- A JavaScript object with scalar values (post-resolution rows, criteria). -/
abbrev SObj := List (String × Scalar)

/-- A JavaScript object with arbitrary values (rows before FK resolution). -/
abbrev JObj := List (String × JValue)

/-- JavaScript truthiness of a scalar (`0`, `''`, `false`, `null` are falsy). -/
def Scalar.truthy : Scalar → Bool
  | .num n  => n ≠ 0
  | .str s  => s ≠ ""
  | .bool b => b
  | .null   => false

/-- `mysql.escape` on a string body: backslash-escape quotes and backslashes. -/
def escapeStrBody (s : String) : String :=
  String.join (s.data.map (fun c =>
    if c = '\'' ∨ c = '\\' then String.mk ['\\', c] else String.mk [c]))

/-- `mysql.escape` of a scalar value. -/
def escape : Scalar → String
  | .num n  => toString n
  | .str s  => "'" ++ escapeStrBody s ++ "'"
  | .bool b => if b then "true" else "false"
  | .null   => "NULL"

/-- `mysql.escape` of a possibly-undefined value (`undefined` escapes to `NULL`). -/
def escapeOpt : Option Scalar → String
  | some s => escape s
  | none   => "NULL"

/-- `mysql.escapeId`: wrap in backquotes, doubling embedded backquotes. -/
def escapeId (s : String) : String :=
  "`" ++ String.join (s.data.map (fun c =>
    if c = '`' then "``" else String.mk [c])) ++ "`"

/-- `mysql.escape` of an object value: the driver renders plain objects as
comma-separated `key = value` assignments. -/
def escapeObjAssignments (o : SObj) : String :=
  String.intercalate ", " (o.map (fun kv => escapeId kv.1 ++ " = " ++ escape kv.2))

/-- `mysql.escape` of a row/criteria value. -/
def escapeJ : JValue → String
  | .scalar s => escape s
  | .obj o    => escapeObjAssignments o

/-- `mysql.escape` of a possibly-undefined row/criteria value. -/
def escapeJOpt : Option JValue → String
  | some v => escapeJ v
  | none   => "NULL"

/-- `key.charAt(0) !== '$'` (the filter predicate of `utils.names`;
`charAt(0)` of an empty string is `''`, which differs from `'$'`). -/
def notDollar (k : String) : Bool :=
  match k.data with
  | [] => true
  | c :: _ => c != '$'

/-- `utils.names` (utils module, part_005): the own enumerable keys of an
object whose names do not begin with `$`, in insertion order. -/
def names {α : Type} (obj : List (String × α)) : List String :=
  (obj.map Prod.fst).filter notDollar

/-- JavaScript property read `obj[key]` (first occurrence; `none` = undefined). -/
def jsGet {α : Type} : List (String × α) → String → Option α
  | [], _ => none
  | (k, v) :: rest, key => if k = key then some v else jsGet rest key

/-- JavaScript property write `obj[key] = v`: overwrite the first occurrence
of `key`, or append the property if it is absent. -/
def jsSet {α : Type} (obj : List (String × α)) (key : String) (v : α) :
    List (String × α) :=
  match obj with
  | [] => [(key, v)]
  | (k, w) :: rest =>
      if k = key then (k, v) :: rest else (k, w) :: jsSet rest key v

/-- JavaScript `delete obj[key]`. -/
def jsDelete {α : Type} (obj : List (String × α)) (key : String) :
    List (String × α) :=
  obj.filter (fun kv => kv.1 != key)

/-- `_(obj).has(key)`. -/
def jsHas {α : Type} (obj : List (String × α)) (key : String) : Bool :=
  (jsGet obj key).isSome

/-!
## LIMIT clause builder

Translation of `module.exports.limit` (src/sql.js lines 203-218, identical
to the private `limit` of src/load.js lines 167-182).  The JavaScript
computes

    var lparams =
        _(criteria).has('$first')?1:0 +
        _(criteria).has('$count')?2:0 +
        _(criteria).has('$last') ?4:0;

Because `+` binds tighter than `?:` in JavaScript, this parses as the
nested conditional

    has($first) ? 1 : (0 + has($count)) ? 2 : (0 + has($last)) ? 4 : 0

(`0 + b` coerces the boolean, and is truthy exactly when `b` is), which is
what `limitLparams` transcribes.  The `switch` below it is transcribed
arm by arm; arms 3, 5, 6 and 7 are proved unreachable in
`limit_lparams_mem` below.  JavaScript subtraction of the criteria values
(arms 5 and 6) is modelled by `jsSubNum`, which only matters on those
unreachable arms.
-/

/-- Numeric value of a criteria entry; non-numeric operands of the (dead)
subtraction arms are modelled as `0`. -/
def jsSubNum (a b : Option JValue) : Int :=
  match a, b with
  | some (.scalar (.num x)), some (.scalar (.num y)) => x - y
  | _, _ => 0

/-- The `lparams` selector of the LIMIT builder, with JavaScript's actual
`?:` / `+` precedence. -/
def limitLparams (criteria : JObj) : Nat :=
  if jsHas criteria "$first" then 1
  else if 0 + (if jsHas criteria "$count" then 1 else 0) ≠ 0 then 2
  else if 0 + (if jsHas criteria "$last" then 1 else 0) ≠ 0 then 4
  else 0

/-- `limit(self, table, criteria, callback)` from src/sql.js / src/load.js:
`.ok none` models `callback(null)` (no clause), `.ok (some s)` models
`callback(null, s)`, `.error e` models `callback(new Error(e))`. -/
def limit (criteria : JObj) : Except String (Option String) :=
  match limitLparams criteria with
  | 0 => .ok none
  | 1 => .error "$first value for LIMIT specified, but no $last or $count value"
  | 2 => .ok (some ("LIMIT " ++ escapeJOpt (jsGet criteria "$count")))
  | 3 => .ok (some ("LIMIT " ++ escapeJOpt (jsGet criteria "$count") ++
                    "\nOFFSET " ++ escapeJOpt (jsGet criteria "$first")))
  | 4 => .error "$last value for LIMIT specified, but no $first or $count value"
  | 5 => .ok (some ("LIMIT " ++
                    escape (.num (jsSubNum (jsGet criteria "$last") (jsGet criteria "$first"))) ++
                    "\nOFFSET " ++ escapeJOpt (jsGet criteria "$first")))
  | 6 => .ok (some ("LIMIT " ++ escapeJOpt (jsGet criteria "$count") ++
                    "\nOFFSET " ++
                    escape (.num (jsSubNum (jsGet criteria "$last") (jsGet criteria "$count")))))
  | _ => .error "$first, $last, $count were all specified for LIMIT"

/-- The selector only ever takes the values 0, 1, 2 and 4: switch arms
3, 5, 6 and 7 of the LIMIT builder are dead code. -/
theorem limit_lparams_mem (criteria : JObj) :
    limitLparams criteria ∈ ([0, 1, 2, 4] : List Nat) := by
  unfold limitLparams
  by_cases h1 : jsHas criteria "$first" <;>
    by_cases h2 : jsHas criteria "$count" <;>
      by_cases h3 : jsHas criteria "$last" <;>
        simp [h1, h2, h3]

/-- C3 counterexample: the claim says any combination of exactly two of
`$first`, `$last`, `$count` is accepted, but the criteria with `$first = 0`
and `$count = 10` (exactly two specifiers) is rejected with an error, and
the criteria with only `$count = 10` (fewer than two specifiers) is
accepted and produces a LIMIT fragment. -/
theorem limit_two_specifiers_rejected :
    limit [("$first", .scalar (.num 0)), ("$count", .scalar (.num 10))] =
      .error "$first value for LIMIT specified, but no $last or $count value" ∧
    limit [("$count", .scalar (.num 10))] = .ok (some "LIMIT 10") := by
  constructor <;> rfl

/-- Helper: the LIMIT builder is equivalent to a priority dispatch on which
specifier keys are present. -/
theorem limit_eq_dispatch (criteria : JObj) :
    limit criteria =
      if jsHas criteria "$first" then
        .error "$first value for LIMIT specified, but no $last or $count value"
      else if jsHas criteria "$count" then
        .ok (some ("LIMIT " ++ escapeJOpt (jsGet criteria "$count")))
      else if jsHas criteria "$last" then
        .error "$last value for LIMIT specified, but no $first or $count value"
      else .ok none := by
  unfold limit limitLparams
  by_cases h1 : jsHas criteria "$first" <;>
    by_cases h2 : jsHas criteria "$count" <;>
      by_cases h3 : jsHas criteria "$last" <;>
        simp [h1, h2, h3]

/-- C3 (amended): the LIMIT builder is a priority dispatch, not a
two-of-three combination check: any criteria containing `$first` is rejected
with an error; otherwise a criteria containing `$count` produces
`LIMIT <$count>` (even with `$last` also present, and even with `$count`
alone); otherwise a criteria containing `$last` is rejected with an error;
otherwise no clause is produced. -/
theorem limit_priority_dispatch (criteria : JObj) :
    limit criteria =
      if jsHas criteria "$first" then
        .error "$first value for LIMIT specified, but no $last or $count value"
      else if jsHas criteria "$count" then
        .ok (some ("LIMIT " ++ escapeJOpt (jsGet criteria "$count")))
      else if jsHas criteria "$last" then
        .error "$last value for LIMIT specified, but no $first or $count value"
      else .ok none :=
  limit_eq_dispatch criteria

/-!
## Foreign-key resolver

Translation of `lookupForeignId` and `lookupForeignIds`
(src/unnamed/part_000 lines 66-144; src/foreign-keys.js lines 213-268 is
the same code except that it does not pass the match count to the
callback).  A resolved `field.references` value is a parent field
reference: in the source it is the parent field object, whose `$table.$name`
and `$name` are the only properties read here, so it is modelled by the two
names. -/

/-- A resolved foreign-key reference: the parent table and field names
(`references.$table.$name` and `references.$name`). -/
structure FieldRef where
  tableName : String
  fieldName : String
deriving DecidableEq

/-- A schema field as consumed by the foreign-key resolver: only its
(optional) `references` property is read. -/
structure Field where
  references : Option FieldRef
deriving DecidableEq

/-- A table as consumed by the foreign-key resolver: a map from column
names to fields (`$`-properties are omitted; `names` never returns them). -/
abbrev FkTable := List (String × Field)

/-- `listForeignKeys(table)` (part_000 lines 46-51): the non-`$` columns of
`table` whose field has a truthy `references` property. -/
def listForeignKeys (table : FkTable) : List String :=
  (names table).filter (fun col => ((jsGet table col).bind Field.references).isSome)

/-- The WHERE clause built by `lookupForeignId` (part_000 lines 71-77): one
`escapedKey=escapedValue` constraint per own field of `criteria`, joined
with `' AND '`. -/
def fkWhere (criteria : SObj) : String :=
  String.intercalate " AND "
    (criteria.map (fun kv => escapeId kv.1 ++ "=" ++ escape kv.2))

/-- The SQL text issued by `lookupForeignId` (part_000 line 80):
`'SELECT ?? FROM ?? WHERE ' + where + ' LIMIT 2'` formatted with
`[foreign.$name, foreign.$table.$name]`. -/
def lookupForeignIdSql (foreign : FieldRef) (criteria : SObj) : String :=
  "SELECT " ++ escapeId foreign.fieldName ++
  " FROM " ++ escapeId foreign.tableName ++
  " WHERE " ++ fkWhere criteria ++ " LIMIT 2"

/-- The error message of `lookupForeignId` (part_000 lines 87-91), without
the `JSON.stringify(criteria)` suffix. -/
def lookupForeignIdErr (foreign : FieldRef) (n : Nat) : String :=
  (if n > 1 then "Multiple" else "No") ++
  " foreign ids (" ++ escapeId foreign.tableName ++ "." ++
  escapeId foreign.fieldName ++ ") found"

/-- The result dispatch of `lookupForeignId` (part_000 lines 86-94) on the
rows returned for its SELECT: exactly one row calls back with
`res[0][foreign.$name]`; otherwise the callback receives an error together
with `res.length` (the match count). -/
def lookupForeignIdResult (foreign : FieldRef) (rows : List SObj) :
    Except (String × Nat) (Option Scalar) :=
  if rows.length ≠ 1 then
    .error (lookupForeignIdErr foreign rows.length, rows.length)
  else
    .ok (jsGet (rows.headD []) foreign.fieldName)

/-- C1: `lookupForeignId` issues
`SELECT <parentKey> FROM <parentTable> WHERE <conjunction over exactly the
criteria's own fields> LIMIT 2`; with exactly one result row it calls back
with that row's key value and no error, and with zero or more than one rows
it calls back with an error carrying the match count. -/
theorem lookupForeignId_spec (foreign : FieldRef) (criteria : SObj)
    (rows : List SObj) :
    lookupForeignIdSql foreign criteria =
      "SELECT " ++ escapeId foreign.fieldName ++
      " FROM " ++ escapeId foreign.tableName ++
      " WHERE " ++
      String.intercalate " AND "
        (criteria.map (fun kv => escapeId kv.1 ++ "=" ++ escape kv.2)) ++
      " LIMIT 2" ∧
    (∀ r, rows = [r] →
      lookupForeignIdResult foreign rows = .ok (jsGet r foreign.fieldName)) ∧
    (rows.length ≠ 1 →
      ∃ msg, lookupForeignIdResult foreign rows = .error (msg, rows.length)) := by
  refine ⟨rfl, ?_, ?_⟩
  · rintro r rfl
    simp [lookupForeignIdResult]
  · intro h
    exact ⟨lookupForeignIdErr foreign rows.length, by simp [lookupForeignIdResult, h]⟩

/-- Witness for `lookupForeignId_spec`: a two-field criteria against a
one-row, a zero-row and a two-row result set. -/
theorem lookupForeignId_spec_witness :
    lookupForeignIdResult ⟨"countries", "id"⟩
        [[("id", .num 372), ("name", .str "Estonia")]] = .ok (some (.num 372)) ∧
    (∃ msg, lookupForeignIdResult ⟨"countries", "id"⟩ [] = .error (msg, 0)) ∧
    (∃ msg, lookupForeignIdResult ⟨"countries", "id"⟩
        [[("id", .num 1)], [("id", .num 2)]] = .error (msg, 2)) := by
  refine ⟨?_, ?_, ?_⟩
  · exact (lookupForeignId_spec ⟨"countries", "id"⟩ []
      [[("id", .num 372), ("name", .str "Estonia")]]).2.1 _ rfl
  · exact (lookupForeignId_spec ⟨"countries", "id"⟩ [] []).2.2 (by decide)
  · exact (lookupForeignId_spec ⟨"countries", "id"⟩ []
      [[("id", .num 1)], [("id", .num 2)]]).2.2 (by decide)

theorem jsGet_jsSet_self {α : Type} (obj : List (String × α)) (k : String) (v : α) :
    jsGet (jsSet obj k v) k = some v := by
  induction obj with
  | nil => simp [jsSet, jsGet]
  | cons kv rest ih =>
      obtain ⟨k', w⟩ := kv
      by_cases h : k' = k
      · subst h
        rw [jsSet, if_pos rfl]
        simp [jsGet]
      · rw [jsSet, if_neg h]
        simp only [jsGet]
        rw [if_neg h, ih]

theorem jsGet_jsSet_ne {α : Type} (obj : List (String × α)) (k k' : String) (v : α)
    (h : k' ≠ k) : jsGet (jsSet obj k v) k' = jsGet obj k' := by
  induction obj with
  | nil =>
      simp only [jsSet, jsGet]
      rw [if_neg (Ne.symm h)]
  | cons kv rest ih =>
      obtain ⟨k'', w⟩ := kv
      by_cases h2 : k'' = k
      · subst h2
        rw [jsSet, if_pos rfl]
        simp only [jsGet]
        rw [if_neg (Ne.symm h), if_neg (Ne.symm h)]
      · rw [jsSet, if_neg h2]
        simp only [jsGet]
        by_cases h3 : k'' = k'
        · rw [if_pos h3, if_pos h3]
        · rw [if_neg h3, if_neg h3, ih]

/-- Whether a possibly-undefined value is an object (`_(value).isObject()`;
`undefined` is not an object). -/
def isObjOpt : Option JValue → Bool
  | some (.obj _) => true
  | _ => false

/-- The `async.each` body of `lookupForeignIds` for one column
(part_000 lines 127-139).  `resolve` abstracts the inner `lookupForeignId`
call against the database; its success value replaces `row[col]`, its error
aborts the whole operation.  A column whose value is not an object is
skipped (`return callback(null)`); a column absent from the table
(impossible for the default column list) is skipped as well. -/
def fkStep (table : FkTable) (resolve : Field → SObj → Except String Scalar)
    (row : JObj) (col : String) : Except String JObj :=
  match jsGet row col, jsGet table col with
  | some (.obj criteria), some field =>
      (resolve field criteria).map (fun res => jsSet row col (.scalar res))
  | _, _ => .ok row

/-- The `async.each` of `lookupForeignIds` (part_000 lines 126-140) over a
column list, with its error propagation. -/
def lookupForeignIdsGo (table : FkTable)
    (resolve : Field → SObj → Except String Scalar) :
    List String → JObj → Except String JObj
  | [], row => .ok row
  | col :: rest, row =>
      match fkStep table resolve row col with
      | .ok row2 => lookupForeignIdsGo table resolve rest row2
      | .error e => .error e

/-- `lookupForeignIds(table, row, callback)` (part_000 lines 121-144) with
the default column list `listForeignKeys(table)`. -/
def lookupForeignIds (table : FkTable)
    (resolve : Field → SObj → Except String Scalar) (row : JObj) :
    Except String JObj :=
  lookupForeignIdsGo table resolve (listForeignKeys table) row

theorem fkStep_ne (table : FkTable) (resolve : Field → SObj → Except String Scalar)
    (row row2 : JObj) (col : String)
    (h : fkStep table resolve row col = .ok row2) :
    ∀ col', col' ≠ col → jsGet row2 col' = jsGet row col' := by
  intro col' hne
  unfold fkStep at h
  cases hv : jsGet row col with
  | none =>
      rw [hv] at h
      have h' : (Except.ok row : Except String JObj) = .ok row2 := h
      cases h'
      rfl
  | some v =>
      cases v with
      | scalar s =>
          rw [hv] at h
          have h' : (Except.ok row : Except String JObj) = .ok row2 := h
          cases h'
          rfl
      | obj criteria =>
          rw [hv] at h
          cases hf : jsGet table col with
          | none =>
              rw [hf] at h
              have h' : (Except.ok row : Except String JObj) = .ok row2 := h
              cases h'
              rfl
          | some field =>
              rw [hf] at h
              have h' : (resolve field criteria).map
                  (fun res => jsSet row col (.scalar res)) = .ok row2 := h
              cases hr : resolve field criteria with
              | error e => rw [hr] at h'; cases h'
              | ok res =>
                  rw [hr] at h'
                  have h'' : (Except.ok (jsSet row col (JValue.scalar res)) :
                      Except String JObj) = .ok row2 := h'
                  cases h''
                  exact jsGet_jsSet_ne row col col' _ hne

theorem fkStep_nonobj (table : FkTable) (resolve : Field → SObj → Except String Scalar)
    (row row2 : JObj) (col : String)
    (h : fkStep table resolve row col = .ok row2)
    (hno : isObjOpt (jsGet row col) = false) : row2 = row := by
  unfold fkStep at h
  cases hv : jsGet row col with
  | none =>
      rw [hv] at h
      have h' : (Except.ok row : Except String JObj) = .ok row2 := h
      cases h'
      rfl
  | some v =>
      cases v with
      | scalar s =>
          rw [hv] at h
          have h' : (Except.ok row : Except String JObj) = .ok row2 := h
          cases h'
          rfl
      | obj criteria =>
          rw [hv] at hno
          simp [isObjOpt] at hno

theorem fkStep_obj (table : FkTable) (resolve : Field → SObj → Except String Scalar)
    (row row2 : JObj) (col : String) (criteria : SObj)
    (h : fkStep table resolve row col = .ok row2)
    (hv : jsGet row col = some (.obj criteria))
    (htab : (jsGet table col).isSome) :
    ∃ field res, jsGet table col = some field ∧
      resolve field criteria = .ok res ∧
      row2 = jsSet row col (.scalar res) := by
  unfold fkStep at h
  rw [hv] at h
  cases hf : jsGet table col with
  | none => rw [hf] at htab; cases htab
  | some field =>
      rw [hf] at h
      have h' : (resolve field criteria).map
          (fun res => jsSet row col (.scalar res)) = .ok row2 := h
      cases hr : resolve field criteria with
      | error e => rw [hr] at h'; cases h'
      | ok res =>
          rw [hr] at h'
          have h'' : (Except.ok (jsSet row col (JValue.scalar res)) :
              Except String JObj) = .ok row2 := h'
          cases h''
          exact ⟨field, res, rfl, hr, rfl⟩

theorem lookupForeignIdsGo_ok (table : FkTable)
    (resolve : Field → SObj → Except String Scalar) :
    ∀ (cols : List String) (row row' : JObj),
      lookupForeignIdsGo table resolve cols row = .ok row' →
      (∀ c ∈ cols, (jsGet table c).isSome) →
      ∀ col,
        (col ∉ cols → jsGet row' col = jsGet row col) ∧
        (isObjOpt (jsGet row col) = false → jsGet row' col = jsGet row col) ∧
        (col ∈ cols → ∀ criteria, jsGet row col = some (.obj criteria) →
          ∃ field res, jsGet table col = some field ∧
            resolve field criteria = .ok res ∧
            jsGet row' col = some (.scalar res)) := by
  intro cols
  induction cols with
  | nil =>
      intro row row' h _ col
      have h' : (Except.ok row : Except String JObj) = .ok row' := h
      cases h'
      exact ⟨fun _ => rfl, fun _ => rfl, fun hmem => absurd hmem (List.not_mem_nil col)⟩
  | cons c cs ih =>
      intro row row' h htab col
      have h0 : ∃ row2, fkStep table resolve row c = .ok row2 ∧
          lookupForeignIdsGo table resolve cs row2 = .ok row' := by
        unfold lookupForeignIdsGo at h
        cases hs : fkStep table resolve row c with
        | error e => rw [hs] at h; cases h
        | ok row2 => rw [hs] at h; exact ⟨row2, rfl, h⟩
      obtain ⟨row2, hstep, hrest⟩ := h0
      have htab' : ∀ a ∈ cs, (jsGet table a).isSome :=
        fun a ha => htab a (List.mem_cons_of_mem c ha)
      refine ⟨fun hn => ?_, fun hno => ?_, fun hmem criteria hv => ?_⟩
      · have hne : col ≠ c := fun h' => hn (h' ▸ List.mem_cons_self c cs)
        have hcs : col ∉ cs := fun h' => hn (List.mem_cons_of_mem c h')
        rw [(ih row2 row' hrest htab' col).1 hcs]
        exact fkStep_ne table resolve row row2 c hstep col hne
      · by_cases hc : col = c
        · subst hc
          have h2 : row2 = row := fkStep_nonobj table resolve row row2 col hstep hno
          rw [h2] at hrest
          by_cases hcs : col ∈ cs
          · -- a duplicated column is skipped again: value still not an object
            exact (ih row row' hrest htab' col).2.1 hno
          · exact (ih row row' hrest htab' col).1 hcs
        · have hget : jsGet row2 col = jsGet row col :=
            fkStep_ne table resolve row row2 c hstep col hc
          rw [← hget] at hno ⊢
          exact (ih row2 row' hrest htab' col).2.1 hno
      · by_cases hc : col = c
        · subst hc
          obtain ⟨field, res, hf, hr, h2⟩ := fkStep_obj table resolve row row2 col
            criteria hstep hv (htab col (List.mem_cons_self col cs))
          refine ⟨field, res, hf, hr, ?_⟩
          subst h2
          have hmid : jsGet (jsSet row col (JValue.scalar res)) col =
              some (JValue.scalar res) := jsGet_jsSet_self row col _
          have := (ih _ row' hrest htab' col).2.1 (by rw [hmid]; rfl)
          rw [this, hmid]
        · have hcs : col ∈ cs := by
            cases List.mem_cons.mp hmem with
            | inl h' => exact absurd h' hc
            | inr h' => exact h'
          have hget : jsGet row2 col = jsGet row col :=
            fkStep_ne table resolve row row2 c hstep col hc
          exact (ih row2 row' hrest htab' col).2.2 hcs criteria (hget.trans hv)

theorem mem_listForeignKeys_isSome (table : FkTable) (c : String)
    (h : c ∈ listForeignKeys table) : (jsGet table c).isSome := by
  unfold listForeignKeys at h
  have := (List.mem_filter.mp h).2
  cases hv : jsGet table c with
  | none => rw [hv] at this; simp [Option.bind] at this
  | some f => rfl

/-- C2: a successful `lookupForeignIds(table, row)` substitutes a resolved
surrogate id into exactly those fields of `row` that are foreign-key fields
of `table` and whose current value is an object; every field whose value is
not an object passes through unresolved, and every non-foreign-key field of
the row is left unchanged. -/
theorem lookupForeignIds_spec (table : FkTable)
    (resolve : Field → SObj → Except String Scalar) (row row' : JObj)
    (h : lookupForeignIds table resolve row = .ok row') (col : String) :
    (col ∉ listForeignKeys table → jsGet row' col = jsGet row col) ∧
    (isObjOpt (jsGet row col) = false → jsGet row' col = jsGet row col) ∧
    (col ∈ listForeignKeys table → ∀ criteria,
      jsGet row col = some (.obj criteria) →
      ∃ field res, jsGet table col = some field ∧
        resolve field criteria = .ok res ∧
        jsGet row' col = some (.scalar res)) :=
  lookupForeignIdsGo_ok table resolve (listForeignKeys table) row row' h
    (fun a ha => mem_listForeignKeys_isSome table a ha) col
/-- Witness for `lookupForeignIds_spec`: a users table whose `country`
column is a foreign key; the object-valued `country` is substituted, the
scalar `role` foreign key passes through, and the non-foreign-key `name`
field is untouched. -/
theorem lookupForeignIds_spec_witness :
    (lookupForeignIds
        [("name", ⟨none⟩), ("country", ⟨some ⟨"countries", "id"⟩⟩),
         ("role", ⟨some ⟨"roles", "id"⟩⟩)]
        (fun _ _ => .ok (.num 372))
        [("name", .scalar (.str "mark")),
         ("country", .obj [("name", .str "Estonia")]),
         ("role", .scalar (.num 3))] =
      .ok [("name", .scalar (.str "mark")),
           ("country", .scalar (.num 372)),
           ("role", .scalar (.num 3))]) ∧
    (∀ row', lookupForeignIds
        [("name", ⟨none⟩), ("country", ⟨some ⟨"countries", "id"⟩⟩),
         ("role", ⟨some ⟨"roles", "id"⟩⟩)]
        (fun _ _ => .ok (.num 372))
        [("name", .scalar (.str "mark")),
         ("country", .obj [("name", .str "Estonia")]),
         ("role", .scalar (.num 3))] = .ok row' →
      jsGet row' "name" = some (.scalar (.str "mark")) ∧
      jsGet row' "role" = some (.scalar (.num 3)) ∧
      jsGet row' "country" = some (.scalar (.num 372))) := by
  constructor
  · rfl
  · intro row' h
    refine ⟨(lookupForeignIds_spec _ _ _ _ h "name").1 (by decide),
            (lookupForeignIds_spec _ _ _ _ h "role").2.1 (by rfl),
            ?_⟩
    obtain ⟨field, res, _, hres, hget⟩ :=
      (lookupForeignIds_spec _ _ _ _ h "country").2.2 (by decide)
        [("name", .str "Estonia")] rfl
    cases hres
    exact hget

/-!
## WHERE clause builder (used by loadMany and delete)

Translation of `where` (src/sql.js lines 133-154, identical to the private
`where` of src/load.js lines 113-134).  The generated constraints are

    cols.map(function (col) { return mysql.format('??=?', [col, res[cols]]); })

`res[cols]` subscripts the resolved criteria object with the whole `cols`
ARRAY; JavaScript coerces the array to its comma-joined string
(`Array.prototype.toString`), modelled by `jsJoin ","`. -/

/-- JavaScript `Array.prototype.join(sep)`. -/
def jsJoin (sep : String) : List String → String
  | [] => ""
  | [s] => s
  | s :: rest => s ++ sep ++ jsJoin sep rest

/-- `where(self, table, criteria, callback)`: no clause for field-less
criteria; otherwise the criteria are run through `lookupForeignIds` with the
explicit column list `cols = names(criteria)`, and each constraint is
`mysql.format('??=?', [col, res[cols]])`, joined with `',\n\t'`. -/
def whereSql (table : FkTable) (resolve : Field → SObj → Except String Scalar)
    (criteria : JObj) : Except String (Option String) :=
  let cols := names criteria
  if cols.isEmpty then .ok none
  else
    match lookupForeignIdsGo table resolve cols criteria with
    | .error e => .error e
    | .ok res =>
        .ok (some ("WHERE\n\t" ++ jsJoin ",\n\t" (cols.map (fun col =>
          escapeId col ++ "=" ++ escapeJOpt (jsGet res (jsJoin "," cols))))))

theorem jsGet_eq_none_of_not_mem {α : Type} (obj : List (String × α)) (k : String)
    (h : k ∉ obj.map Prod.fst) : jsGet obj k = none := by
  induction obj with
  | nil => rfl
  | cons kv rest ih =>
      obtain ⟨k', v⟩ := kv
      have h1 : k' ≠ k := fun h' => h (by simp [h'])
      have h2 : k ∉ rest.map Prod.fst := fun h' => h (by simp [h'])
      simp only [jsGet]
      rw [if_neg h1]
      exact ih h2

theorem jsSet_fst_of_isSome {α : Type} (obj : List (String × α)) (k : String) (v : α)
    (h : (jsGet obj k).isSome) :
    (jsSet obj k v).map Prod.fst = obj.map Prod.fst := by
  induction obj with
  | nil => simp [jsGet] at h
  | cons kv rest ih =>
      obtain ⟨k', w⟩ := kv
      by_cases h1 : k' = k
      · rw [jsSet, if_pos h1]
        simp
      · rw [jsSet, if_neg h1]
        simp only [jsGet] at h
        rw [if_neg h1] at h
        simp only [List.map_cons]
        rw [ih h]

theorem fkStep_fst (table : FkTable) (resolve : Field → SObj → Except String Scalar)
    (row row2 : JObj) (col : String)
    (h : fkStep table resolve row col = .ok row2) :
    row2.map Prod.fst = row.map Prod.fst := by
  unfold fkStep at h
  cases hv : jsGet row col with
  | none =>
      rw [hv] at h
      have h' : (Except.ok row : Except String JObj) = .ok row2 := h
      cases h'
      rfl
  | some v =>
      cases v with
      | scalar s =>
          rw [hv] at h
          have h' : (Except.ok row : Except String JObj) = .ok row2 := h
          cases h'
          rfl
      | obj criteria =>
          rw [hv] at h
          cases hf : jsGet table col with
          | none =>
              rw [hf] at h
              have h' : (Except.ok row : Except String JObj) = .ok row2 := h
              cases h'
              rfl
          | some field =>
              rw [hf] at h
              have h' : (resolve field criteria).map
                  (fun res => jsSet row col (.scalar res)) = .ok row2 := h
              cases hr : resolve field criteria with
              | error e => rw [hr] at h'; cases h'
              | ok res =>
                  rw [hr] at h'
                  have h'' : (Except.ok (jsSet row col (JValue.scalar res)) :
                      Except String JObj) = .ok row2 := h'
                  cases h''
                  exact jsSet_fst_of_isSome row col _ (by rw [hv]; rfl)

theorem lookupForeignIdsGo_fst (table : FkTable)
    (resolve : Field → SObj → Except String Scalar) :
    ∀ (cols : List String) (row row' : JObj),
      lookupForeignIdsGo table resolve cols row = .ok row' →
      row'.map Prod.fst = row.map Prod.fst := by
  intro cols
  induction cols with
  | nil =>
      intro row row' h
      have h' : (Except.ok row : Except String JObj) = .ok row' := h
      cases h'
      rfl
  | cons c cs ih =>
      intro row row' h
      unfold lookupForeignIdsGo at h
      cases hs : fkStep table resolve row c with
      | error e => rw [hs] at h; cases h
      | ok row2 =>
          rw [hs] at h
          exact (ih row2 row' h).trans (fkStep_fst table resolve row row2 c hs)

theorem comma_mem_jsJoin (c d : String) (cs : List String) :
    ',' ∈ (jsJoin "," (c :: d :: cs)).data := by
  show ',' ∈ (c ++ "," ++ jsJoin "," (d :: cs)).data
  rw [String.data_append, String.data_append]
  simp [String.data]

/-- C9: in the WHERE clause builder of loadMany and delete, every generated
equality constraint reads its value at the single key obtained by joining
the entire column-name array (`res[cols]`): with exactly one non-`$` field
the constraint receives that field's resolved criterion value, while with
two or more non-`$` fields every constraint receives the one value looked
up at the comma-joined key — which is undefined whenever no criteria field
name contains a comma — rather than the per-column criteria values. -/
theorem where_reads_joined_key (table : FkTable)
    (resolve : Field → SObj → Except String Scalar) (criteria res : JObj)
    (hres : lookupForeignIdsGo table resolve (names criteria) criteria = .ok res) :
    (∀ c, names criteria = [c] →
      whereSql table resolve criteria =
        .ok (some ("WHERE\n\t" ++ escapeId c ++ "=" ++ escapeJOpt (jsGet res c)))) ∧
    (2 ≤ (names criteria).length →
      whereSql table resolve criteria =
        .ok (some ("WHERE\n\t" ++ jsJoin ",\n\t" ((names criteria).map (fun col =>
          escapeId col ++ "=" ++
          escapeJOpt (jsGet res (jsJoin "," (names criteria))))))) ∧
      ((∀ k ∈ criteria.map Prod.fst, ',' ∉ k.data) →
        jsGet res (jsJoin "," (names criteria)) = none)) := by
  constructor
  · intro c hc
    unfold whereSql
    rw [hc] at hres ⊢
    simp only [List.isEmpty_cons, Bool.false_eq_true, if_false, hres]
    rfl
  · intro hlen
    obtain ⟨c, d, cs, hcols⟩ : ∃ c d cs, names criteria = c :: d :: cs := by
      cases h1 : names criteria with
      | nil => rw [h1] at hlen; simp at hlen
      | cons c rest =>
          cases h2 : rest with
          | nil => rw [h1, h2] at hlen; simp at hlen
          | cons d cs => subst h2; exact ⟨c, d, cs, rfl⟩
    constructor
    · unfold whereSql
      rw [hcols] at hres ⊢
      simp only [List.isEmpty_cons, Bool.false_eq_true, if_false, hres]
    · intro hnc
      apply jsGet_eq_none_of_not_mem
      rw [lookupForeignIdsGo_fst table resolve (names criteria) criteria res hres]
      intro hmem
      have := hnc _ hmem
      rw [hcols] at this
      exact this (comma_mem_jsJoin c d cs)

/-- Witness for `where_reads_joined_key`: a single-field criteria generates
its own resolved value; the two-field criteria `{a: 1, b: 2}` generates two
constraints that both read key `"a,b"`, which is undefined, so both render
as `NULL`. -/
theorem where_reads_joined_key_witness :
    whereSql [] (fun _ _ => .error "no fk") [("a", .scalar (.num 1))] =
      .ok (some ("WHERE\n\t" ++ escapeId "a" ++ "=" ++ escape (.num 1))) ∧
    whereSql [] (fun _ _ => .error "no fk")
        [("a", .scalar (.num 1)), ("b", .scalar (.num 2))] =
      .ok (some "WHERE\n\t`a`=NULL,\n\t`b`=NULL") ∧
    jsGet [("a", JValue.scalar (.num 1)), ("b", JValue.scalar (.num 2))]
      (jsJoin "," (names [("a", JValue.scalar (.num 1)),
                          ("b", JValue.scalar (.num 2))])) = none := by
  refine ⟨?_, ?_, ?_⟩
  · exact (where_reads_joined_key [] (fun _ _ => .error "no fk")
      [("a", .scalar (.num 1))] [("a", .scalar (.num 1))] rfl).1 "a" rfl
  · have := ((where_reads_joined_key [] (fun _ _ => .error "no fk")
      [("a", .scalar (.num 1)), ("b", .scalar (.num 2))]
      [("a", .scalar (.num 1)), ("b", .scalar (.num 2))] rfl).2 (by decide)).1
    rw [this]
    rfl
  · exact ((where_reads_joined_key [] (fun _ _ => .error "no fk")
      [("a", .scalar (.num 1)), ("b", .scalar (.num 2))]
      [("a", .scalar (.num 1)), ("b", .scalar (.num 2))] rfl).2 (by decide)).2
      (by decide)

/-!
## load (src/load.js lines 238-267)

`load(table, IdOrCriteria, callback)` builds a criteria object (an id
becomes `{id: ...}`, an object is copied property by property), deletes
`$first` and `$last`, sets `$limit = 2`, calls `loadMany`, and dispatches
on the number of returned rows. -/

/-- The argument of `load`: a scalar id (`isNumber() || isString()` in the
source; only numbers and strings reach the id branch) or a criteria object. -/
inductive IdOrCriteria
  | id  : Scalar → IdOrCriteria
  | crit : JObj → IdOrCriteria

/-- Is the scalar a JavaScript number or string? -/
def Scalar.isNumOrStr : Scalar → Bool
  | .num _ => true
  | .str _ => true
  | _ => false

/-- The criteria object constructed by `load` (lines 239-252): id inputs
become `{id: ...}`, object inputs are copied; then `$first` and `$last` are
deleted and `$limit` is set to `2`. -/
def loadTransform (x : IdOrCriteria) : JObj :=
  let criteria : JObj :=
    match x with
    | .id s => if s.isNumOrStr then [("id", .scalar s)] else []
    | .crit o => o
  jsSet (jsDelete (jsDelete criteria "$first") "$last") "$limit" (.scalar (.num 2))

/-- The result dispatch of `load` (lines 253-266): zero rows calls back
with `(null, null)`, one row with that row, more rows with an error. -/
def loadDispatch (table : String) (rows : List SObj) : Except String (Option SObj) :=
  if rows.length = 0 then .ok none
  else if rows.length = 1 then .ok (some (rows.headD []))
  else .error ("Multiple rows were returned for GET operation on table " ++ table)

theorem jsGet_jsDelete_self {α : Type} (obj : List (String × α)) (k : String) :
    jsGet (jsDelete obj k) k = none := by
  induction obj with
  | nil => rfl
  | cons kv rest ih =>
      obtain ⟨k', v⟩ := kv
      by_cases h : k' = k
      · simp only [jsDelete, List.filter]
        rw [show ((k', v).1 != k) = false by simp [h]]
        exact ih
      · simp only [jsDelete, List.filter]
        rw [show ((k', v).1 != k) = true by simp [h]]
        simp only [jsGet]
        rw [if_neg h]
        exact ih

theorem jsGet_jsDelete_ne {α : Type} (obj : List (String × α)) (k k' : String)
    (h : k' ≠ k) : jsGet (jsDelete obj k) k' = jsGet obj k' := by
  induction obj with
  | nil => rfl
  | cons kv rest ih =>
      obtain ⟨k'', v⟩ := kv
      by_cases h2 : k'' = k
      · simp only [jsDelete, List.filter]
        rw [show ((k'', v).1 != k) = false by simp [h2]]
        simp only [jsGet]
        rw [if_neg (fun h3 => h (h3.symm.trans h2))]
        exact ih
      · simp only [jsDelete, List.filter]
        rw [show ((k'', v).1 != k) = true by simp [h2]]
        simp only [jsGet]
        by_cases h3 : k'' = k'
        · rw [if_pos h3, if_pos h3]
        · rw [if_neg h3, if_neg h3]
          exact ih

/-- C10 counterexample: the claim says the SELECT issued by `load` carries
no LIMIT clause, but for the criteria input `{$count: 5}` the criteria
object `load` hands to `loadMany` still contains `$count`, and the LIMIT
builder emits `LIMIT 5` for it. -/
theorem load_criteria_with_count_has_limit :
    limit (loadTransform (.crit [("$count", .scalar (.num 5))])) =
      .ok (some "LIMIT 5") := by
  rfl

/-- C10 (amended): `load` deletes `$first` and `$last` from its criteria
and sets `$limit = 2`, a key the LIMIT builder never reads, so the issued
SELECT carries no LIMIT clause unless the caller's criteria itself contains
`$count` (which survives the transformation and produces `LIMIT <$count>`);
`load` then calls back with `(null, null)` on zero rows, the single row on
one row, and an error on more than one row. -/
theorem load_spec (x : IdOrCriteria) (table : String) (rows : List SObj) :
    jsHas (loadTransform x) "$first" = false ∧
    jsHas (loadTransform x) "$last" = false ∧
    jsGet (loadTransform x) "$limit" = some (.scalar (.num 2)) ∧
    (jsHas (loadTransform x) "$count" = false → limit (loadTransform x) = .ok none) ∧
    (loadDispatch table [] = .ok none) ∧
    (∀ r, loadDispatch table [r] = .ok (some r)) ∧
    (2 ≤ rows.length → ∃ e, loadDispatch table rows = .error e) := by
  have hne1 : ("$first" : String) ≠ "$limit" := by decide
  have hne2 : ("$last" : String) ≠ "$limit" := by decide
  have hne3 : ("$count" : String) ≠ "$limit" := by decide
  have hne4 : ("$first" : String) ≠ "$last" := by decide
  have hfirst : jsHas (loadTransform x) "$first" = false := by
    unfold loadTransform jsHas
    rw [jsGet_jsSet_ne _ _ _ _ hne1, jsGet_jsDelete_ne _ _ _ hne4,
      jsGet_jsDelete_self]
    rfl
  have hlast : jsHas (loadTransform x) "$last" = false := by
    unfold loadTransform jsHas
    rw [jsGet_jsSet_ne _ _ _ _ hne2, jsGet_jsDelete_self]
    rfl
  refine ⟨hfirst, hlast, ?_, ?_, rfl, fun r => rfl, ?_⟩
  · unfold loadTransform
    exact jsGet_jsSet_self _ _ _
  · intro hcount
    rw [limit_eq_dispatch]
    rw [hfirst, hcount, hlast]
    rfl
  · intro hlen
    refine ⟨"Multiple rows were returned for GET operation on table " ++ table, ?_⟩
    unfold loadDispatch
    rw [if_neg (by omega), if_neg (by omega)]

/-- Witness for `load_spec`: loading by id `1` produces a criteria object
with no `$first`/`$last`, a dead `$limit = 2`, and no LIMIT clause; the
dispatch on zero, one and three rows behaves as stated. -/
theorem load_spec_witness :
    jsGet (loadTransform (.id (.num 1))) "$limit" = some (.scalar (.num 2)) ∧
    limit (loadTransform (.id (.num 1))) = .ok none ∧
    loadDispatch "users" [] = .ok none ∧
    loadDispatch "users" [[("id", .num 1)]] = .ok (some [("id", .num 1)]) ∧
    (∃ e, loadDispatch "users" [[], [], []] = .error e) := by
  obtain ⟨h1, h2, h3, h4, h5, h6, h7⟩ :=
    load_spec (.id (.num 1)) "users" [[], [], []]
  exact ⟨h3, h4 (by rfl), h5, h6 [("id", .num 1)], h7 (by decide)⟩

/-!
## save (src/unnamed/part_004 lines 78-154, identical to part_003
lines 146-222; the older src/save.js save has no `$saveMode` machinery)

`save` first resolves foreign keys (`lookupForeignIds`, modelled above),
then dispatches on `row.$saveMode`; rows here are modelled from the
post-resolution point, with all values scalar.  The SQL statements
assembled from the `sql.insertInto` / `sql.set` / `sql.onDuplicateKeyUpdate`
clause builders are modelled at statement level (`SaveStmt`), and their
execution by the MySQL driver by `execStmt` over an explicit database
state.  `QueryResult` follows the driver's OkPacket: `insertId` is the
generated AUTO_INCREMENT value when one was generated and `0` otherwise;
an `INSERT … ON DUPLICATE KEY UPDATE` that updates an existing row reports
`affectedRows = 2`.

The `'existing'` branch never builds its UPDATE: part_004 line 122 runs
`async.apply(sql.where, self, table, { id: row.id })` with no query
function, so inside `sql.where` (sql.js line 135) `arguments[0]` is the
table, the ternary falls through to `this.query`, and — because
`async.apply` invokes the function as `fn.apply(null, …)` and sql.js is in
strict mode — `this` is `null` and `this.query` throws a synchronous
TypeError.  No callback fires.  `SaveFailure` therefore distinguishes an
error delivered to the callback (`cberr`) from a synchronous exception that
propagates without any callback (`thrown`). -/

/-- How a save can fail: an error passed to the callback, or a synchronous
exception that propagates without any callback firing. -/
inductive SaveFailure
  | cberr  : String → SaveFailure
  | thrown : String → SaveFailure
deriving DecidableEq

/-- State of one table: rows keyed by primary-key value, plus the
AUTO_INCREMENT counter. -/
structure TableData where
  rows : List (Scalar × SObj)
  nextId : Int
deriving DecidableEq

/-- Database state: per-table data, keyed by table name. -/
structure DB where
  tables : List (String × TableData)
deriving DecidableEq

/-- What `save` reads from the table schema: `table.$name` and whether
`_(table).has('id')`. -/
structure SaveTable where
  name : String
  hasIdField : Bool
deriving DecidableEq

/-- The statement shapes `save` can issue.  There is no UPDATE shape: the
`'existing'` branch crashes in `sql.where` before its UPDATE is assembled. -/
inductive SaveStmt
  | insert (table : String) (set : SObj)
  | insertODKU (table : String) (set : SObj) (updateKeys : List String)
deriving DecidableEq

/-- The driver's OkPacket fields read by `save`. -/
structure QueryResult where
  affectedRows : Nat
  insertId : Int
deriving DecidableEq

/-- Row lookup by primary-key value. -/
def dbGet : List (Scalar × SObj) → Scalar → Option SObj
  | [], _ => none
  | (k, r) :: rest, idv => if k = idv then some r else dbGet rest idv

/-- Replace the row stored under a primary-key value. -/
def dbSetRow : List (Scalar × SObj) → Scalar → SObj → List (Scalar × SObj)
  | [], _, _ => []
  | (k, r) :: rest, idv, payload =>
      if k = idv then (k, payload) :: rest else (k, r) :: dbSetRow rest idv payload

/-- Apply the `key = VALUES(key)` assignments of an ON DUPLICATE KEY UPDATE
clause to a stored row. -/
def applyODKU (r : SObj) (set : SObj) (updateKeys : List String) : SObj :=
  updateKeys.foldl (fun acc k =>
    match jsGet set k with
    | some v => jsSet acc k v
    | none => acc) r

/-- `sql.set` with an explicit key list: one `key = row[key]` pair per key. -/
def setList (keys : List String) (row : SObj) : SObj :=
  keys.map (fun k => (k, (jsGet row k).getD .null))

/-- `sql.set` with the default key list `names(row)`. -/
def setPairs (row : SObj) : SObj :=
  setList (names row) row

/-- JavaScript string coercion of a scalar (for error messages). -/
def scalarDisplay : Scalar → String
  | .num n  => toString n
  | .str s  => s
  | .bool b => if b then "true" else "false"
  | .null   => "null"

/-- `row.$saveMode || 'always'` (part_004 line 88): a falsy `$saveMode`
falls back to `'always'`. -/
def effectiveSaveMode (row : SObj) : Scalar :=
  match jsGet row "$saveMode" with
  | some s => if s.truthy then s else .str "always"
  | none => .str "always"

/-- The outcome of the mode dispatch of `save` (part_004 lines 88-133), for
the row with `$saveMode` already deleted.  In the `always` branch the
update-key list is `_(names(row)).without(['id'])`: underscore's `without`
removes elements `===` its arguments, and the argument here is the ARRAY
`['id']`, which no string element equals — so the list keeps every non-`$`
key, `id` included.

The `existing` branch with an id present reaches
`async.apply(sql.where, self, table, { id: row.id })` (line 122) — no query
function is passed, so inside `sql.where` (sql.js line 135) the ternary
`(_(arguments[0]).isFunction() && arguments[0].name === 'query') ?
shift(arguments) : this.query` sees the table as `arguments[0]` and
evaluates `this.query`; `async.apply` calls `fn.apply(null, …)` and sql.js
is in strict mode, so `this` is `null` and reading `.query` throws
synchronously, before any UPDATE statement exists and without calling the
callback. -/
def saveStmtCore (table : SaveTable) (mode : Scalar) (row : SObj) :
    Except SaveFailure SaveStmt :=
  if mode = .str "always" then
    .ok (.insertODKU table.name (setPairs row) (names row))
  else if mode = .str "new" then
    .ok (.insert table.name (setPairs row))
  else if mode = .str "existing" then
    match jsGet row "id" with
    | none => .error (.cberr "Cannot save to existing row: no ID specified")
    | some _ =>
        .error (.thrown "TypeError: Cannot read property query of null")
  else .error (.cberr ("Unknown save mode: " ++ scalarDisplay mode))

/-- The mode dispatch of `save` on the incoming row: the mode is read
(with default `'always'`), then `row.$saveMode` is deleted. -/
def saveStmt (table : SaveTable) (row : SObj) : Except SaveFailure SaveStmt :=
  saveStmtCore table (effectiveSaveMode row) (jsDelete row "$saveMode")

/-- Execution of one statement by the MySQL driver against the database
state.  An INSERT generates an id when the SET list carries no `id` (or a
NULL one); an explicit duplicate id is a driver error for plain INSERT and
an update for INSERT … ON DUPLICATE KEY UPDATE. -/
def execStmt (db : DB) : SaveStmt → Except String (DB × QueryResult)
  | .insert t set =>
      match jsGet db.tables t with
      | none => .error ("ER_NO_SUCH_TABLE: Table " ++ t ++ " does not exist")
      | some td =>
          match jsGet set "id" with
          | some v =>
              if v ≠ .null then
                if (dbGet td.rows v).isSome then
                  .error "ER_DUP_ENTRY: Duplicate entry for key PRIMARY"
                else
                  .ok ({ tables := jsSet db.tables t
                           { rows := td.rows ++ [(v, set)], nextId := td.nextId } },
                       { affectedRows := 1, insertId := 0 })
              else
                .ok ({ tables := jsSet db.tables t
                         { rows := td.rows ++
                             [(.num td.nextId, jsSet set "id" (.num td.nextId))],
                           nextId := td.nextId + 1 } },
                     { affectedRows := 1, insertId := td.nextId })
          | none =>
              .ok ({ tables := jsSet db.tables t
                       { rows := td.rows ++
                           [(.num td.nextId, jsSet set "id" (.num td.nextId))],
                         nextId := td.nextId + 1 } },
                   { affectedRows := 1, insertId := td.nextId })
  | .insertODKU t set updateKeys =>
      match jsGet db.tables t with
      | none => .error ("ER_NO_SUCH_TABLE: Table " ++ t ++ " does not exist")
      | some td =>
          match jsGet set "id" with
          | some v =>
              if v ≠ .null then
                match dbGet td.rows v with
                | some r =>
                    .ok ({ tables := jsSet db.tables t
                             { rows := dbSetRow td.rows v (applyODKU r set updateKeys),
                               nextId := td.nextId } },
                         { affectedRows := 2, insertId := 0 })
                | none =>
                    .ok ({ tables := jsSet db.tables t
                             { rows := td.rows ++ [(v, set)], nextId := td.nextId } },
                         { affectedRows := 1, insertId := 0 })
              else
                .ok ({ tables := jsSet db.tables t
                         { rows := td.rows ++
                             [(.num td.nextId, jsSet set "id" (.num td.nextId))],
                           nextId := td.nextId + 1 } },
                     { affectedRows := 1, insertId := td.nextId })
          | none =>
              .ok ({ tables := jsSet db.tables t
                       { rows := td.rows ++
                           [(.num td.nextId, jsSet set "id" (.num td.nextId))],
                         nextId := td.nextId + 1 } },
                   { affectedRows := 1, insertId := td.nextId })

/-- The `execQuery` helper of `save` (part_004 lines 135-150): an
`affectedRows` of 0 is an error; otherwise, since the OkPacket always has a
numeric `insertId`, `row.id = res.insertId` is performed whenever the table
has an `id` field.  Driver errors are delivered to the callback. -/
def execQuery (table : SaveTable) (mode : Scalar) (db : DB) (row : SObj)
    (stmt : SaveStmt) : Except SaveFailure (DB × SObj) :=
  match execStmt db stmt with
  | .error e => .error (.cberr e)
  | .ok (db', res) =>
      if res.affectedRows = 0 then
        .error (.cberr ("Failed to save row with mode " ++ scalarDisplay mode))
      else
        .ok (db', if table.hasIdField
                  then jsSet row "id" (.num res.insertId)
                  else row)

/-- `save(table, row, callback)` from the mode dispatch on (part_004 lines
87-151); foreign keys in `row` have already been resolved.  A `.cberr`
result reaches the callback as its error argument; a `.thrown` result is a
synchronous exception and the callback never runs. -/
def save (table : SaveTable) (row : SObj) (db : DB) :
    Except SaveFailure (DB × SObj) :=
  match saveStmtCore table (effectiveSaveMode row) (jsDelete row "$saveMode") with
  | .error e => .error e
  | .ok stmt =>
      execQuery table (effectiveSaveMode row) db (jsDelete row "$saveMode") stmt

theorem jsGet_mem_fst {α : Type} (obj : List (String × α)) (k : String) (v : α)
    (h : jsGet obj k = some v) : k ∈ obj.map Prod.fst := by
  induction obj with
  | nil => cases h
  | cons kv rest ih =>
      obtain ⟨k', w⟩ := kv
      simp only [jsGet] at h
      by_cases h1 : k' = k
      · simp [h1]
      · rw [if_neg h1] at h
        simp [ih h]

theorem jsGet_setList (row : SObj) (k : String) (keys : List String) :
    jsGet (setList keys row) k =
      if k ∈ keys then some ((jsGet row k).getD .null) else none := by
  induction keys with
  | nil => simp [setList, jsGet]
  | cons a ks ih =>
      simp only [setList, List.map_cons, jsGet]
      by_cases h1 : a = k
      · subst h1
        rw [if_pos rfl, if_pos (List.mem_cons_self a ks)]
      · rw [if_neg h1]
        by_cases h2 : k ∈ ks
        · rw [show setList ks row = List.map (fun k => (k, (jsGet row k).getD .null)) ks from rfl] at ih
          rw [ih, if_pos h2, if_pos (List.mem_cons_of_mem a h2)]
        · rw [show setList ks row = List.map (fun k => (k, (jsGet row k).getD .null)) ks from rfl] at ih
          rw [ih, if_neg h2, if_neg (by
            intro hmem
            cases List.mem_cons.mp hmem with
            | inl h' => exact h1 h'.symm
            | inr h' => exact h2 h')]

theorem jsDelete_jsSet {α : Type} (obj : List (String × α)) (k : String) (v : α) :
    jsDelete (jsSet obj k v) k = jsDelete obj k := by
  induction obj with
  | nil => simp [jsSet, jsDelete, List.filter]
  | cons kv rest ih =>
      obtain ⟨k', w⟩ := kv
      by_cases h1 : k' = k
      · subst h1
        rw [jsSet, if_pos rfl]
        simp [jsDelete, List.filter]
      · rw [jsSet, if_neg h1]
        simp only [jsDelete, List.filter] at ih ⊢
        simp [h1, ih]

theorem mem_names_of_jsGet {α : Type} (obj : List (String × α)) (k : String) (v : α)
    (h : jsGet obj k = some v) (hk : notDollar k = true) : k ∈ names obj := by
  unfold names
  exact List.mem_filter.mpr ⟨jsGet_mem_fst obj k v h, hk⟩

theorem saveStmtCore_always (table : SaveTable) (row : SObj) :
    saveStmtCore table (.str "always") row =
      .ok (.insertODKU table.name (setPairs row) (names row)) := by
  unfold saveStmtCore
  rw [if_pos rfl]

theorem saveStmtCore_new (table : SaveTable) (row : SObj) :
    saveStmtCore table (.str "new") row =
      .ok (.insert table.name (setPairs row)) := by
  unfold saveStmtCore
  rw [if_neg (by decide), if_pos rfl]

theorem saveStmtCore_existing_noid (table : SaveTable) (row : SObj)
    (h : jsGet row "id" = none) :
    saveStmtCore table (.str "existing") row =
      .error (.cberr "Cannot save to existing row: no ID specified") := by
  unfold saveStmtCore
  rw [if_neg (by decide), if_neg (by decide), if_pos rfl, h]

theorem saveStmtCore_existing_id (table : SaveTable) (row : SObj) (idv : Scalar)
    (h : jsGet row "id" = some idv) :
    saveStmtCore table (.str "existing") row =
      .error (.thrown "TypeError: Cannot read property query of null") := by
  unfold saveStmtCore
  rw [if_neg (by decide), if_neg (by decide), if_pos rfl, h]

theorem execStmt_insert_dup (db : DB) (t : String) (set : SObj) (td : TableData)
    (idv : Scalar) (htd : jsGet db.tables t = some td)
    (hid : jsGet set "id" = some idv) (hnull : idv ≠ .null)
    (hdup : (dbGet td.rows idv).isSome = true) :
    execStmt db (.insert t set) =
      .error "ER_DUP_ENTRY: Duplicate entry for key PRIMARY" := by
  unfold execStmt
  simp only [htd, hid, if_pos hnull, if_pos hdup]

/-- C4: refuted — the claim says mode `'existing'` issues an `UPDATE`
filtered by the row's id and reports `'Failed to save row with mode
existing'` through the callback when no row matches.  In the code, every
`'existing'`-mode save of a row that carries an id throws a synchronous
TypeError instead: `save` (part_004 line 122) applies `sql.where` through
`async.apply` without passing a query function, so `sql.where` (sql.js line
135) falls through its ternary to `this.query`, and `this` is `null`
because `async.apply` invokes `fn.apply(null, …)` under strict mode.  The
exception fires before any UPDATE is assembled and the callback never runs,
whether or not a matching row exists. -/
theorem save_existing_mode_crashes (table : SaveTable) (row : SObj) (db : DB)
    (idv : Scalar)
    (hmode : jsGet row "$saveMode" = some (.str "existing"))
    (hid : jsGet row "id" = some idv) :
    save table row db =
      .error (.thrown "TypeError: Cannot read property query of null") := by
  have hidne : ("id" : String) ≠ "$saveMode" := by decide
  have h1 : effectiveSaveMode row = .str "existing" := by
    unfold effectiveSaveMode; rw [hmode]; rfl
  have hid2 : jsGet (jsDelete row "$saveMode") "id" = some idv := by
    rw [jsGet_jsDelete_ne row "$saveMode" "id" hidne, hid]
  unfold save
  rw [h1, saveStmtCore_existing_id table _ idv hid2]

/-- Witness for `save_existing_mode_crashes`: the row
`{$saveMode: 'existing', id: 1, name: 'x'}` against a users table whose row
with id 1 EXISTS — instead of updating it, save throws the TypeError. -/
theorem save_existing_mode_crashes_witness :
    save ⟨"users", true⟩
        [("$saveMode", .str "existing"), ("id", .num 1), ("name", .str "x")]
        (DB.mk [("users", ⟨[(.num 1, [("id", .num 1), ("name", .str "mark")])], 2⟩)]) =
      .error (.thrown "TypeError: Cannot read property query of null") :=
  save_existing_mode_crashes ⟨"users", true⟩
    [("$saveMode", .str "existing"), ("id", .num 1), ("name", .str "x")]
    (DB.mk [("users", ⟨[(.num 1, [("id", .num 1), ("name", .str "mark")])], 2⟩)])
    (.num 1) rfl rfl

theorem mem_fst_jsGet_isSome {α : Type} (obj : List (String × α)) (k : String)
    (h : k ∈ obj.map Prod.fst) : (jsGet obj k).isSome := by
  induction obj with
  | nil => simp at h
  | cons kv rest ih =>
      obtain ⟨k', v⟩ := kv
      simp only [jsGet]
      by_cases h1 : k' = k
      · rw [if_pos h1]; rfl
      · rw [if_neg h1]
        refine ih ?_
        simp only [List.map_cons, List.mem_cons] at h
        cases h with
        | inl h' => exact absurd h'.symm h1
        | inr h' => exact h'

theorem jsGet_setPairs_none (row : SObj) (k : String)
    (h : jsGet row k = none) : jsGet (setPairs row) k = none := by
  unfold setPairs
  rw [jsGet_setList]
  rw [if_neg (fun hmem => by
    have hfst : k ∈ row.map Prod.fst := (List.mem_filter.mp hmem).1
    have := mem_fst_jsGet_isSome row k hfst
    rw [h] at this
    cases this)]

theorem execStmt_insert_auto (db : DB) (t : String) (set : SObj) (td : TableData)
    (htd : jsGet db.tables t = some td) (hid : jsGet set "id" = none) :
    execStmt db (.insert t set) =
      .ok ({ tables := jsSet db.tables t
               { rows := td.rows ++ [(.num td.nextId, jsSet set "id" (.num td.nextId))],
                 nextId := td.nextId + 1 } },
           { affectedRows := 1, insertId := td.nextId }) := by
  unfold execStmt
  simp only [htd, hid]

theorem execStmt_insertODKU_auto (db : DB) (t : String) (set : SObj)
    (updateKeys : List String) (td : TableData)
    (htd : jsGet db.tables t = some td) (hid : jsGet set "id" = none) :
    execStmt db (.insertODKU t set updateKeys) =
      .ok ({ tables := jsSet db.tables t
               { rows := td.rows ++ [(.num td.nextId, jsSet set "id" (.num td.nextId))],
                 nextId := td.nextId + 1 } },
           { affectedRows := 1, insertId := td.nextId }) := by
  unfold execStmt
  simp only [htd, hid]

theorem dbGet_append_self (rows : List (Scalar × SObj)) (v : Scalar) (p : SObj) :
    (dbGet (rows ++ [(v, p)]) v).isSome = true := by
  induction rows with
  | nil => simp [dbGet]
  | cons kr rest ih =>
      obtain ⟨k, r⟩ := kr
      simp only [List.cons_append, dbGet]
      by_cases h : k = v
      · rw [if_pos h]; rfl
      · rw [if_neg h]; exact ih

/-- C5: a successful `save` of a row carrying no primary-key value (on a
table with an `id` field) inserts a new row under the table's generated
AUTO_INCREMENT id and back-fills that id into the caller's row: the
returned row carries `id = nextId` and the table now stores a row under
that key. -/
theorem save_backfills_generated_id (table : SaveTable) (row : SObj) (db : DB)
    (td : TableData) (db' : DB) (row' : SObj)
    (hid : jsGet row "id" = none)
    (hfield : table.hasIdField = true)
    (htd : jsGet db.tables table.name = some td)
    (h : save table row db = .ok (db', row')) :
    jsGet row' "id" = some (.num td.nextId) ∧
    (∃ td', jsGet db'.tables table.name = some td' ∧
      (dbGet td'.rows (.num td.nextId)).isSome = true) := by
  have hid2 : jsGet (jsDelete row "$saveMode") "id" = none := by
    rw [jsGet_jsDelete_ne row "$saveMode" "id" (by decide), hid]
  have hsetid : jsGet (setPairs (jsDelete row "$saveMode")) "id" = none :=
    jsGet_setPairs_none _ _ hid2
  by_cases hm1 : effectiveSaveMode row = .str "always"
  · unfold save at h
    rw [hm1, saveStmtCore_always] at h
    have h2 : execQuery table (.str "always") db (jsDelete row "$saveMode")
        (.insertODKU table.name (setPairs (jsDelete row "$saveMode"))
          (names (jsDelete row "$saveMode"))) = .ok (db', row') := h
    unfold execQuery at h2
    rw [execStmt_insertODKU_auto db table.name _ _ td htd hsetid, hfield] at h2
    have h3 : Except.ok
        (({ tables := jsSet db.tables table.name
              { rows := td.rows ++
                  [(.num td.nextId,
                    jsSet (setPairs (jsDelete row "$saveMode")) "id" (.num td.nextId))],
                nextId := td.nextId + 1 } } : DB),
         jsSet (jsDelete row "$saveMode") "id" (.num td.nextId)) =
        Except.ok (db', row') := h2
    cases h3
    refine ⟨jsGet_jsSet_self _ _ _, ⟨_, jsGet_jsSet_self _ _ _, ?_⟩⟩
    exact dbGet_append_self td.rows (.num td.nextId) _
  · by_cases hm2 : effectiveSaveMode row = .str "new"
    · unfold save at h
      rw [hm2, saveStmtCore_new] at h
      have h2 : execQuery table (.str "new") db (jsDelete row "$saveMode")
          (.insert table.name (setPairs (jsDelete row "$saveMode"))) =
          .ok (db', row') := h
      unfold execQuery at h2
      rw [execStmt_insert_auto db table.name _ td htd hsetid, hfield] at h2
      have h3 : Except.ok
          (({ tables := jsSet db.tables table.name
                { rows := td.rows ++
                    [(.num td.nextId,
                      jsSet (setPairs (jsDelete row "$saveMode")) "id" (.num td.nextId))],
                  nextId := td.nextId + 1 } } : DB),
           jsSet (jsDelete row "$saveMode") "id" (.num td.nextId)) =
          Except.ok (db', row') := h2
      cases h3
      refine ⟨jsGet_jsSet_self _ _ _, ⟨_, jsGet_jsSet_self _ _ _, ?_⟩⟩
      exact dbGet_append_self td.rows (.num td.nextId) _
    · by_cases hm3 : effectiveSaveMode row = .str "existing"
      · unfold save at h
        rw [hm3, saveStmtCore_existing_noid table _ hid2] at h
        exact Except.noConfusion h
      · unfold save at h
        have hsm : saveStmtCore table (effectiveSaveMode row)
            (jsDelete row "$saveMode") =
            .error (.cberr
              ("Unknown save mode: " ++ scalarDisplay (effectiveSaveMode row))) := by
          unfold saveStmtCore
          rw [if_neg hm1, if_neg hm2, if_neg hm3]
        rw [hsm] at h
        exact Except.noConfusion h

/-- Witness for `save_backfills_generated_id`: saving `{name: 'mark'}` into
an empty users table whose AUTO_INCREMENT counter is 7 returns a row with
`id = 7` and stores a row under key 7. -/
theorem save_backfills_generated_id_witness :
    jsGet [("name", Scalar.str "mark"), ("id", Scalar.num 7)] "id" =
      some (.num 7) ∧
    (∃ td', jsGet (DB.mk [("users",
        ⟨[(.num 7, [("name", .str "mark"), ("id", .num 7)])], 8⟩)]).tables
        "users" = some td' ∧
      (dbGet td'.rows (.num 7)).isSome = true) := by
  have h := save_backfills_generated_id ⟨"users", true⟩ [("name", .str "mark")]
    (DB.mk [("users", ⟨[], 7⟩)]) ⟨[], 7⟩
    (DB.mk [("users", ⟨[(.num 7, [("name", .str "mark"), ("id", .num 7)])], 8⟩)])
    [("name", Scalar.str "mark"), ("id", Scalar.num 7)]
    rfl rfl rfl rfl
  exact h

/-!
## saveMany and saveMultipleTables (part_004 lines 194-271, identical to
part_003 lines 225-261 and src/save.js lines 151-187)

`saveMany` saves each row of a table through `save`; `saveMultipleTables`
begins a transaction, runs each table's `saveMany` in order through the
transaction's query function, commits when everything succeeded and rolls
back on any error. -/

/-- Modelled from the spec: the transaction module (`./transaction`,
required by index.js, is not under src/; the spec delegates
begin/commit/rollback to the underlying driver).  A transaction snapshots
the database; queries run against the working state; commit publishes the
working state and rollback restores the snapshot. -/
structure Txn where
  snapshot : DB
  working : DB
deriving DecidableEq

/-- Modelled from the spec: `beginTransaction` opens a transaction on the
current database state. -/
def beginTransaction (db : DB) : Txn :=
  { snapshot := db, working := db }

/-- Modelled from the spec: `transaction.commit` publishes the working state. -/
def Txn.commit (t : Txn) : DB :=
  t.working

/-- Modelled from the spec: `transaction.rollback` restores the snapshot,
discarding every change made through the transaction. -/
def Txn.rollback (t : Txn) : DB :=
  t.snapshot

/-- `saveMany(table, rows, callback)`: each row is saved through `save`;
the first failure aborts the batch.  A `.thrown` failure is a synchronous
exception inside the `async.eachSeries` iterator: async does not catch it,
so it propagates out of the whole series. -/
def saveMany (table : SaveTable) : List SObj → DB → Except SaveFailure DB
  | [], db => .ok db
  | r :: rest, db =>
      match save table r db with
      | .error e => .error e
      | .ok (db', _) => saveMany table rest db'

/-- The `async.eachSeries(names(data), …)` body of `saveMultipleTables`:
each non-`$` entry of `data` is saved into the schema table of the same
name with `saveMany`; the first failure aborts the series.  A table name
with no schema entry makes `saveMany` dereference `undefined`, a
synchronous TypeError. -/
def saveAllTables (schema : List (String × SaveTable)) :
    List (String × List SObj) → DB → Except SaveFailure DB
  | [], db => .ok db
  | (tn, rows) :: rest, db =>
      if notDollar tn then
        match jsGet schema tn with
        | none => .error (.thrown ("TypeError: unknown table " ++ tn))
        | some t =>
            match saveMany t rows db with
            | .error e => .error e
            | .ok db' => saveAllTables schema rest db'
      else saveAllTables schema rest db

/-- The observable outcome of `saveMultipleTables`: the transaction was
committed and the callback got `null`; or it was rolled back and the
callback got the error; or a synchronous exception propagated mid-series —
the transaction is neither committed nor rolled back and the callback never
runs. -/
inductive MtOutcome
  | committed : DB → MtOutcome
  | rolledBack : DB → String → MtOutcome
  | crashed : String → MtOutcome
deriving DecidableEq

/-- `saveMultipleTables(data, callback)` (part_004 lines 248-271): the
whole multi-table batch runs inside one transaction; on success the
transaction is committed and the callback receives `null`; on a
callback-reported error the transaction is rolled back and the callback
receives the error.  A synchronous exception (an `'existing'`-mode row with
an id, or an unknown table name) unwinds through `async.eachSeries` past
both the rollback call and the callback. -/
def saveMultipleTables (schema : List (String × SaveTable))
    (data : List (String × List SObj)) (db : DB) : MtOutcome :=
  match saveAllTables schema data (beginTransaction db).working with
  | .ok w => .committed (Txn.commit { beginTransaction db with working := w })
  | .error (.cberr e) => .rolledBack (Txn.rollback (beginTransaction db)) e
  | .error (.thrown m) => .crashed m

/-- C6: amended — `saveMultipleTables` is all-or-nothing for
callback-reported failures: when any row fails with an error delivered to
its callback, the whole batch rolls back, the database comes back exactly
as it was, and the callback receives the error; the working state is
committed exactly when every table's batch succeeds.  But the claim's
unconditional all-or-nothing is false: a batch containing an
`'existing'`-mode row with an id throws a synchronous TypeError
mid-transaction, with neither a rollback nor a callback. -/
theorem saveMultipleTables_atomic (schema : List (String × SaveTable))
    (data : List (String × List SObj)) (db : DB) :
    (∀ e, saveAllTables schema data db = .error (.cberr e) →
      saveMultipleTables schema data db = .rolledBack db e) ∧
    (∀ db', saveAllTables schema data db = .ok db' →
      saveMultipleTables schema data db = .committed db') ∧
    (∀ db₀ e, saveMultipleTables schema data db = .rolledBack db₀ e → db₀ = db) ∧
    (∀ db', saveMultipleTables schema data db = .committed db' →
      saveAllTables schema data db = .ok db') ∧
    (∀ m, saveAllTables schema data db = .error (.thrown m) →
      saveMultipleTables schema data db = .crashed m) := by
  refine ⟨fun e he => ?_, fun db' hok => ?_, fun db₀ e he => ?_,
          fun db' hc => ?_, fun m hm => ?_⟩
  · unfold saveMultipleTables
    rw [show (beginTransaction db).working = db from rfl, he]
    rfl
  · unfold saveMultipleTables
    rw [show (beginTransaction db).working = db from rfl, hok]
    rfl
  · unfold saveMultipleTables at he
    rw [show (beginTransaction db).working = db from rfl] at he
    cases hall : saveAllTables schema data db with
    | ok w => rw [hall] at he; exact MtOutcome.noConfusion he
    | error f =>
        cases f with
        | cberr e' =>
            rw [hall] at he
            have he' : MtOutcome.rolledBack db e' = MtOutcome.rolledBack db₀ e := he
            exact ((MtOutcome.rolledBack.injEq _ _ _ _).mp he').1.symm
        | thrown m => rw [hall] at he; exact MtOutcome.noConfusion he
  · unfold saveMultipleTables at hc
    rw [show (beginTransaction db).working = db from rfl] at hc
    cases hall : saveAllTables schema data db with
    | ok w =>
        rw [hall] at hc
        have hc' : MtOutcome.committed w = MtOutcome.committed db' := hc
        rw [(MtOutcome.committed.injEq _ _).mp hc']
    | error f =>
        cases f with
        | cberr e' => rw [hall] at hc; exact MtOutcome.noConfusion hc
        | thrown m => rw [hall] at hc; exact MtOutcome.noConfusion hc
  · unfold saveMultipleTables
    rw [show (beginTransaction db).working = db from rfl, hm]

/-- Witness for `saveMultipleTables_atomic`: a two-table batch whose second
table contains an `'existing'`-mode row with no id fails through the
callback, and the database comes back unchanged with the error; dropping
the bad row commits the working state with both new rows. -/
theorem saveMultipleTables_atomic_witness :
    saveMultipleTables
        [("roles", ⟨"roles", true⟩), ("users", ⟨"users", true⟩)]
        [("roles", [[("name", .str "admin")]]),
         ("users", [[("$saveMode", .str "existing"), ("name", .str "mark")]])]
        (DB.mk [("roles", ⟨[], 1⟩), ("users", ⟨[], 1⟩)]) =
      .rolledBack (DB.mk [("roles", ⟨[], 1⟩), ("users", ⟨[], 1⟩)])
        "Cannot save to existing row: no ID specified" ∧
    saveMultipleTables
        [("roles", ⟨"roles", true⟩), ("users", ⟨"users", true⟩)]
        [("roles", [[("name", .str "admin")]]),
         ("users", [[("name", .str "mark")]])]
        (DB.mk [("roles", ⟨[], 1⟩), ("users", ⟨[], 1⟩)]) =
      .committed
        (DB.mk [("roles", ⟨[(.num 1, [("name", .str "admin"), ("id", .num 1)])], 2⟩),
                ("users", ⟨[(.num 1, [("name", .str "mark"), ("id", .num 1)])], 2⟩)]) := by
  constructor
  · exact (saveMultipleTables_atomic
      [("roles", ⟨"roles", true⟩), ("users", ⟨"users", true⟩)]
      [("roles", [[("name", .str "admin")]]),
       ("users", [[("$saveMode", .str "existing"), ("name", .str "mark")]])]
      (DB.mk [("roles", ⟨[], 1⟩), ("users", ⟨[], 1⟩)])).1
      "Cannot save to existing row: no ID specified" rfl
  · exact (saveMultipleTables_atomic
      [("roles", ⟨"roles", true⟩), ("users", ⟨"users", true⟩)]
      [("roles", [[("name", .str "admin")]]),
       ("users", [[("name", .str "mark")]])]
      (DB.mk [("roles", ⟨[], 1⟩), ("users", ⟨[], 1⟩)])).2.1
      (DB.mk [("roles", ⟨[(.num 1, [("name", .str "admin"), ("id", .num 1)])], 2⟩),
              ("users", ⟨[(.num 1, [("name", .str "mark"), ("id", .num 1)])], 2⟩)])
      rfl

/-- Counterexample to C6 as claimed: a one-table batch whose single row has
`$saveMode: 'existing'` and an id — and whose matching row exists — does
not roll back and does not reach the callback: the synchronous TypeError
from `sql.where` propagates out of the series, leaving the transaction
open. -/
theorem saveMultipleTables_crash_no_rollback :
    saveMultipleTables
        [("users", ⟨"users", true⟩)]
        [("users",
          [[("$saveMode", .str "existing"), ("id", .num 1), ("name", .str "x")]])]
        (DB.mk [("users", ⟨[(.num 1, [("id", .num 1), ("name", .str "mark")])], 2⟩)]) =
      .crashed "TypeError: Cannot read property query of null" := by
  rfl

/-!
## Schema normalization (src/autogen.js, initialise_schema, lines 25-74)

JavaScript mutates the schema in place.  Two facts of the source matter for
the embedding:

* when a field is given in string notation, the parsed descriptor is built
  in the local variable `field` and never assigned back to
  `table[fieldName]`, so the schema keeps the string — for such fields only
  the `table.$primary` assignment (and the `::id` throw) escape;
* the `$schema`/`$table`/`$name` back references are object references in
  the source; they are modelled by the referenced object's name, which
  determines them (re-assigning the same reference is the identity).

A thrown `Error` aborts the whole run (`Except.error`); the partially
mutated schema of an aborted JavaScript run is not observable through the
constructor, which propagates the exception. -/

/-- JavaScript `String.prototype.split(sep)` for a one-character separator. -/
def jsSplitAux (sep : Char) : List Char → List Char → List (List Char)
  | [], acc => [acc.reverse]
  | c :: cs, acc =>
      if c = sep then acc.reverse :: jsSplitAux sep cs []
      else jsSplitAux sep cs (c :: acc)

/-- JavaScript `s.split(sep)` (one-character separator). -/
def jsSplit (sep : Char) (s : String) : List String :=
  (jsSplitAux sep s.data []).map String.mk

/-- JavaScript `String.prototype.trim`. -/
def jsTrim (s : String) : String :=
  String.mk (((s.data.dropWhile Char.isWhitespace).reverse.dropWhile
    Char.isWhitespace).reverse)

/-- A canonical field descriptor: the properties written by
`initialise_schema`, plus the name-valued back references. -/
structure FieldDesc where
  type : String
  unique : Bool
  index : Bool
  nullable : Bool
  onDelete : Option String
  onUpdate : Option String
  sname : Option String
  stable : Option String
  sschema : Option String
deriving DecidableEq

/-- A field as stored in the schema: string notation or a descriptor. -/
inductive FieldSpec
  | str : String → FieldSpec
  | desc : FieldDesc → FieldSpec
deriving DecidableEq

/-- A table: its non-`$` fields in insertion order, plus `$primary`,
`$name`, `$schema` (absent = `none`; `!table.$primary` is absence). -/
structure SchemaTable where
  fields : List (String × FieldSpec)
  primary : Option String
  sname : Option String
  sschema : Option String
deriving DecidableEq

/-- A schema: its non-`$` tables in insertion order, `$types`, `$name`. -/
structure Schema where
  tables : List (String × SchemaTable)
  types : List (String × String)
  sname : Option String
deriving DecidableEq

/-- Parsing of string field notation (autogen.js lines 43-54):
`split(',')`, trim, first entry is the type, the rest are flags. -/
def parseFieldString (s : String) : FieldDesc :=
  { type := ((jsSplit ',' s).map jsTrim).headD "",
    unique := ((jsSplit ',' s).map jsTrim).tail.contains "unique",
    index := ((jsSplit ',' s).map jsTrim).tail.contains "index",
    nullable := ((jsSplit ',' s).map jsTrim).tail.contains "nullable",
    onDelete := if ((jsSplit ',' s).map jsTrim).tail.contains "cascade"
                then some "cascade" else none,
    onUpdate := if ((jsSplit ',' s).map jsTrim).tail.contains "cascade"
                then some "cascade" else none,
    sname := none, stable := none, sschema := none }

/-- Type-alias resolution (autogen.js lines 56-58): one lookup in `$types`. -/
def resolveAlias (types : List (String × String)) (ty : String) : String :=
  match jsGet types ty with
  | some v => v
  | none => ty

/-- Mutations persist only on object fields: string-notation fields are
parsed into a local variable that is never assigned back (autogen.js
lines 43-45 build a fresh local object). -/
def writeBack : FieldSpec → FieldDesc → FieldSpec
  | .str s, _ => .str s
  | .desc _, d => .desc d

/-- The parsed-or-given descriptor of a field (autogen.js lines 42-54). -/
def fieldDescOf : FieldSpec → FieldDesc
  | .str s => parseFieldString s
  | .desc d => d

/-- `field.$schema = …; field.$table = table; field.$name = fieldName`
(autogen.js lines 69-71), with the type set. -/
def FieldDesc.finish (d : FieldDesc) (ty schemaName tableName fieldName : String) :
    FieldDesc :=
  { d with
      type := ty
      sschema := some schemaName
      stable := some tableName
      sname := some fieldName }

/-- Processing of one field (autogen.js lines 40-72): parse string
notation, resolve one type alias, handle the `::id` builtin (rewriting the
type, claiming `$primary`, or throwing when a primary key already exists),
then set the back references. -/
def initField (types : List (String × String)) (schemaName tableName fieldName : String)
    (primary : Option String) (fs : FieldSpec) :
    Except String (FieldSpec × Option String) :=
  if resolveAlias types (fieldDescOf fs).type = "::id" then
    if primary.isSome then
      .error ("Cannot parse ::id key \"" ++ fieldName ++ "\": table \"" ++
        tableName ++ "\" already has primary key(s) specified")
    else
      .ok (writeBack fs ((fieldDescOf fs).finish "INTEGER AUTO_INCREMENT"
             schemaName tableName fieldName),
           some fieldName)
  else
    .ok (writeBack fs ((fieldDescOf fs).finish
           (resolveAlias types (fieldDescOf fs).type)
           schemaName tableName fieldName),
         primary)

/-- The field loop of `initialise_schema` (autogen.js lines 40-72),
threading `table.$primary`. -/
def initFields (types : List (String × String)) (schemaName tableName : String) :
    List (String × FieldSpec) → Option String →
    Except String (List (String × FieldSpec) × Option String)
  | [], primary => .ok ([], primary)
  | (n, f) :: rest, primary =>
      match initField types schemaName tableName n primary f with
      | .error e => .error e
      | .ok (f', p') =>
          match initFields types schemaName tableName rest p' with
          | .error e => .error e
          | .ok (rest', p'') => .ok ((n, f') :: rest', p'')

/-- `table.$schema = orm.schema; table.$name = tableName` (lines 34-35). -/
def withBackrefs (t : SchemaTable) (schemaName tableName : String) : SchemaTable :=
  { t with sschema := some schemaName, sname := some tableName }

/-- The injected default primary key `table.id = { type: '::id' }`. -/
def autoIdField : FieldSpec :=
  .desc { type := "::id", unique := false, index := false, nullable := false,
          onDelete := none, onUpdate := none,
          sname := none, stable := none, sschema := none }

/-- `if (!_(table).has('id') && !table.$primary) table.id = …` (lines 37-39);
property assignment appends the new key at the end. -/
def withAutoId (t : SchemaTable) : SchemaTable :=
  if (t.fields.map Prod.fst).contains "id" = false ∧ t.primary = none then
    { t with fields := t.fields ++ [("id", autoIdField)] }
  else t

/-- Normalization of one table (autogen.js lines 31-73). -/
def initTable (types : List (String × String)) (schemaName tableName : String)
    (t : SchemaTable) : Except String SchemaTable :=
  match initFields types schemaName tableName
      (withAutoId (withBackrefs t schemaName tableName)).fields
      (withAutoId (withBackrefs t schemaName tableName)).primary with
  | .error e => .error e
  | .ok (fs, p) =>
      .ok { withAutoId (withBackrefs t schemaName tableName) with
              fields := fs, primary := p }

/-- The table loop of `initialise_schema`. -/
def initTables (types : List (String × String)) (schemaName : String) :
    List (String × SchemaTable) → Except String (List (String × SchemaTable))
  | [] => .ok []
  | (tn, t) :: rest =>
      match initTable types schemaName tn t with
      | .error e => .error e
      | .ok t' =>
          match initTables types schemaName rest with
          | .error e => .error e
          | .ok rest' => .ok ((tn, t') :: rest')

/-- `initialise_schema(orm)` (autogen.js lines 25-74): set `schema.$name`
to the database name and normalize each non-`$` table. -/
def initialise_schema (database : String) (s : Schema) : Except String Schema :=
  match initTables s.types database s.tables with
  | .error e => .error e
  | .ok ts => .ok { s with tables := ts, sname := some database }

/-- C7 counterexample: normalization is not idempotent.  The schema
`{t: {id: '::id'}}` normalizes successfully (claiming `$primary = 'id'`,
while the string-notation field is kept as the string, since the parsed
descriptor is never written back); running `initialise_schema` a second
time on the result re-parses the string `'::id'` and throws, because
`table.$primary` is already set. -/
theorem initialise_schema_not_idempotent :
    initialise_schema "db"
        (Schema.mk [("t", ⟨[("id", .str "::id")], none, none, none⟩)] [] none) =
      .ok (Schema.mk [("t", ⟨[("id", .str "::id")], some "id", some "t", some "db"⟩)]
        [] (some "db")) ∧
    initialise_schema "db"
        (Schema.mk [("t", ⟨[("id", .str "::id")], some "id", some "t", some "db"⟩)]
          [] (some "db")) =
      .error "Cannot parse ::id key \"id\": table \"t\" already has primary key(s) specified" := by
  constructor <;> rfl

theorem jsGet_mem {α : Type} (obj : List (String × α)) (k : String) (v : α)
    (h : jsGet obj k = some v) : (k, v) ∈ obj := by
  induction obj with
  | nil => cases h
  | cons kv rest ih =>
      obtain ⟨k', w⟩ := kv
      simp only [jsGet] at h
      by_cases h1 : k' = k
      · rw [if_pos h1] at h
        cases h
        subst h1
        exact List.mem_cons_self _ _
      · rw [if_neg h1] at h
        exact List.mem_cons_of_mem _ (ih h)

/-- After one alias-resolution step under a non-chaining alias map, the
type is a fixed point of alias resolution. -/
theorem resolveAlias_fixed (types : List (String × String)) (ty : String)
    (ha : ∀ kv ∈ types, jsGet types kv.2 = none) :
    resolveAlias types (resolveAlias types ty) = resolveAlias types ty := by
  unfold resolveAlias
  cases hj : jsGet types ty with
  | none => rw [hj]
  | some v =>
      have := ha (ty, v) (jsGet_mem types ty v hj)
      rw [this]

theorem fieldDescOf_desc (d : FieldDesc) : fieldDescOf (.desc d) = d := rfl

theorem fieldDescOf_str (s : String) : fieldDescOf (.str s) = parseFieldString s := rfl

theorem finish_type (d : FieldDesc) (ty sn tn fn : String) :
    (FieldDesc.finish d ty sn tn fn).type = ty := rfl

theorem finish_finish (d : FieldDesc) (ty ty' sn tn fn : String) :
    (FieldDesc.finish d ty sn tn fn).finish ty' sn tn fn =
      FieldDesc.finish d ty' sn tn fn := rfl

theorem writeBack_str (s : String) (d : FieldDesc) :
    writeBack (.str s) d = .str s := rfl

theorem writeBack_desc (d0 d : FieldDesc) :
    writeBack (.desc d0) d = .desc d := rfl

theorem initField_idem (types : List (String × String))
    (sn tn fn : String) (primary p' : Option String) (fs f' : FieldSpec)
    (h : initField types sn tn fn primary fs = .ok (f', p'))
    (ha : ∀ kv ∈ types, jsGet types kv.2 = none)
    (hb : jsGet types "INTEGER AUTO_INCREMENT" = none)
    (hstr : ∀ str, fs = .str str →
      resolveAlias types (parseFieldString str).type ≠ "::id") :
    ∀ q, initField types sn tn fn q f' = .ok (f', q) := by
  intro q
  have hres : resolveAlias types "INTEGER AUTO_INCREMENT" =
      "INTEGER AUTO_INCREMENT" := by
    unfold resolveAlias
    rw [hb]
  unfold initField at h
  by_cases hcond : resolveAlias types (fieldDescOf fs).type = "::id"
  · rw [if_pos hcond] at h
    cases fs with
    | str s => exact absurd hcond (hstr s rfl)
    | desc d =>
        cases hp : primary with
        | some x =>
            rw [hp] at h
            exact Except.noConfusion h
        | none =>
            rw [hp] at h
            have h2 : Except.ok
                (writeBack (FieldSpec.desc d)
                  ((fieldDescOf (FieldSpec.desc d)).finish "INTEGER AUTO_INCREMENT"
                    sn tn fn), some fn) =
                (Except.ok (f', p') : Except String (FieldSpec × Option String)) := h
            cases h2
            unfold initField
            simp only [writeBack_desc, fieldDescOf_desc, finish_type, finish_finish, hres]
            rw [if_neg (by decide : ¬ ("INTEGER AUTO_INCREMENT" = "::id"))]
  · rw [if_neg hcond] at h
    have h2 : Except.ok
        (writeBack fs ((fieldDescOf fs).finish
          (resolveAlias types (fieldDescOf fs).type) sn tn fn), primary) =
        (Except.ok (f', p') : Except String (FieldSpec × Option String)) := h
    cases h2
    cases fs with
    | str s =>
        unfold initField
        simp only [writeBack_str]
        rw [if_neg hcond]
    | desc d =>
        have hfix : resolveAlias types (resolveAlias types d.type) =
            resolveAlias types d.type :=
          resolveAlias_fixed types d.type ha
        unfold initField
        simp only [writeBack_desc, fieldDescOf_desc, finish_type, finish_finish, hfix]
        rw [if_neg (by rw [fieldDescOf_desc] at hcond; exact hcond)]

theorem initFields_idem (types : List (String × String)) (sn tn : String) :
    ∀ (fields : List (String × FieldSpec)) (primary p' : Option String)
      (fs' : List (String × FieldSpec)),
      initFields types sn tn fields primary = .ok (fs', p') →
      (∀ kv ∈ types, jsGet types kv.2 = none) →
      jsGet types "INTEGER AUTO_INCREMENT" = none →
      (∀ fn str, (fn, FieldSpec.str str) ∈ fields →
        resolveAlias types (parseFieldString str).type ≠ "::id") →
      ∀ q, initFields types sn tn fs' q = .ok (fs', q) := by
  intro fields
  induction fields with
  | nil =>
      intro primary p' fs' h _ _ _ q
      have h2 : (Except.ok (([] : List (String × FieldSpec)), primary) :
          Except String (List (String × FieldSpec) × Option String)) =
          .ok (fs', p') := h
      cases h2
      rfl
  | cons nf rest ih =>
      intro primary p' fs' h ha hb hstr q
      obtain ⟨n, f⟩ := nf
      unfold initFields at h
      cases h1 : initField types sn tn n primary f with
      | error e => rw [h1] at h; exact Except.noConfusion h
      | ok fp =>
          obtain ⟨f', p1⟩ := fp
          rw [h1] at h
          have h4 : (match initFields types sn tn rest p1 with
              | Except.error e => (Except.error e :
                  Except String (List (String × FieldSpec) × Option String))
              | Except.ok (rest', p'') => Except.ok ((n, f') :: rest', p'')) =
              Except.ok (fs', p') := h
          cases h2 : initFields types sn tn rest p1 with
          | error e => rw [h2] at h4; exact Except.noConfusion h4
          | ok rp =>
              obtain ⟨rest', p2⟩ := rp
              rw [h2] at h4
              have h3 : (Except.ok ((n, f') :: rest', p2) :
                  Except String (List (String × FieldSpec) × Option String)) =
                  .ok (fs', p') := h4
              cases h3
              have hf2 := initField_idem types sn tn n primary p1 f f' h1 ha hb
                (fun str hfs => hstr n str (hfs ▸ List.mem_cons_self _ _))
              have hr2 := ih p1 _ rest' h2 ha hb
                (fun fn str hm => hstr fn str (List.mem_cons_of_mem _ hm))
              unfold initFields
              rw [hf2 q]
              have hgoal : (match initFields types sn tn rest' q with
                  | Except.error e => (Except.error e :
                      Except String (List (String × FieldSpec) × Option String))
                  | Except.ok (rest'', p'') => Except.ok ((n, f') :: rest'', p'')) =
                  Except.ok ((n, f') :: rest', q) := by
                rw [hr2 q]
              exact hgoal

theorem initFields_fst (types : List (String × String)) (sn tn : String) :
    ∀ (fields : List (String × FieldSpec)) (primary p' : Option String)
      (fs' : List (String × FieldSpec)),
      initFields types sn tn fields primary = .ok (fs', p') →
      fs'.map Prod.fst = fields.map Prod.fst := by
  intro fields
  induction fields with
  | nil =>
      intro primary p' fs' h
      have h2 : (Except.ok (([] : List (String × FieldSpec)), primary) :
          Except String (List (String × FieldSpec) × Option String)) =
          .ok (fs', p') := h
      cases h2
      rfl
  | cons nf rest ih =>
      intro primary p' fs' h
      obtain ⟨n, f⟩ := nf
      unfold initFields at h
      cases h1 : initField types sn tn n primary f with
      | error e => rw [h1] at h; exact Except.noConfusion h
      | ok fp =>
          obtain ⟨f', p1⟩ := fp
          rw [h1] at h
          have h4 : (match initFields types sn tn rest p1 with
              | Except.error e => (Except.error e :
                  Except String (List (String × FieldSpec) × Option String))
              | Except.ok (rest', p'') => Except.ok ((n, f') :: rest', p'')) =
              Except.ok (fs', p') := h
          cases h2 : initFields types sn tn rest p1 with
          | error e => rw [h2] at h4; exact Except.noConfusion h4
          | ok rp =>
              obtain ⟨rest', p2⟩ := rp
              rw [h2] at h4
              have h3 : (Except.ok ((n, f') :: rest', p2) :
                  Except String (List (String × FieldSpec) × Option String)) =
                  .ok (fs', p') := h4
              cases h3
              simp only [List.map_cons]
              rw [ih p1 _ rest' h2]

theorem initField_primary_some (types : List (String × String))
    (sn tn fn : String) (x : String) (fs f' : FieldSpec) (p' : Option String)
    (h : initField types sn tn fn (some x) fs = .ok (f', p')) : p' = some x := by
  unfold initField at h
  by_cases hcond : resolveAlias types (fieldDescOf fs).type = "::id"
  · rw [if_pos hcond] at h
    exact Except.noConfusion h
  · rw [if_neg hcond] at h
    have h2 : Except.ok
        (writeBack fs ((fieldDescOf fs).finish
          (resolveAlias types (fieldDescOf fs).type) sn tn fn), some x) =
        (Except.ok (f', p') : Except String (FieldSpec × Option String)) := h
    cases h2
    rfl

theorem initFields_primary_some (types : List (String × String)) (sn tn : String) :
    ∀ (fields : List (String × FieldSpec)) (x : String) (p' : Option String)
      (fs' : List (String × FieldSpec)),
      initFields types sn tn fields (some x) = .ok (fs', p') →
      p' = some x := by
  intro fields
  induction fields with
  | nil =>
      intro x p' fs' h
      have h2 : (Except.ok (([] : List (String × FieldSpec)), some x) :
          Except String (List (String × FieldSpec) × Option String)) =
          .ok (fs', p') := h
      cases h2
      rfl
  | cons nf rest ih =>
      intro x p' fs' h
      obtain ⟨n, f⟩ := nf
      unfold initFields at h
      cases h1 : initField types sn tn n (some x) f with
      | error e => rw [h1] at h; exact Except.noConfusion h
      | ok fp =>
          obtain ⟨f', p1⟩ := fp
          rw [h1] at h
          have hp1 : p1 = some x := initField_primary_some types sn tn n x f f' p1 h1
          subst hp1
          have h4 : (match initFields types sn tn rest (some x) with
              | Except.error e => (Except.error e :
                  Except String (List (String × FieldSpec) × Option String))
              | Except.ok (rest', p'') => Except.ok ((n, f') :: rest', p'')) =
              Except.ok (fs', p') := h
          cases h2 : initFields types sn tn rest (some x) with
          | error e => rw [h2] at h4; exact Except.noConfusion h4
          | ok rp =>
              obtain ⟨rest', p2⟩ := rp
              rw [h2] at h4
              have h3 : (Except.ok ((n, f') :: rest', p2) :
                  Except String (List (String × FieldSpec) × Option String)) =
                  .ok (fs', p') := h4
              cases h3
              exact ih x p' rest' h2

theorem withAutoId_primary (t : SchemaTable) : (withAutoId t).primary = t.primary := by
  unfold withAutoId
  split <;> rfl

theorem withAutoId_sschema (t : SchemaTable) : (withAutoId t).sschema = t.sschema := by
  unfold withAutoId
  split <;> rfl

theorem withAutoId_sname (t : SchemaTable) : (withAutoId t).sname = t.sname := by
  unfold withAutoId
  split <;> rfl

theorem withBackrefs_self (t : SchemaTable) (sn tn : String)
    (h1 : t.sschema = some sn) (h2 : t.sname = some tn) :
    withBackrefs t sn tn = t := by
  obtain ⟨f, p, nm, sc⟩ := t
  simp only at h1 h2
  subst h1
  subst h2
  rfl

theorem withAutoId_self (t : SchemaTable)
    (h : ¬ ((t.fields.map Prod.fst).contains "id" = false ∧ t.primary = none)) :
    withAutoId t = t := by
  unfold withAutoId
  rw [if_neg h]

theorem initTable_idem (types : List (String × String)) (sn tn : String)
    (t t' : SchemaTable)
    (h : initTable types sn tn t = .ok t')
    (ha : ∀ kv ∈ types, jsGet types kv.2 = none)
    (hb : jsGet types "INTEGER AUTO_INCREMENT" = none)
    (hstr : ∀ fn str, (fn, FieldSpec.str str) ∈ t.fields →
      resolveAlias types (parseFieldString str).type ≠ "::id") :
    initTable types sn tn t' = .ok t' := by
  have hstr2 : ∀ fn str,
      (fn, FieldSpec.str str) ∈ (withAutoId (withBackrefs t sn tn)).fields →
      resolveAlias types (parseFieldString str).type ≠ "::id" := by
    intro fn str hm
    unfold withAutoId at hm
    by_cases hcond : (((withBackrefs t sn tn).fields.map Prod.fst).contains "id" = false ∧
        (withBackrefs t sn tn).primary = none)
    · rw [if_pos hcond] at hm
      cases List.mem_append.mp hm with
      | inl h' => exact hstr fn str h'
      | inr h' =>
          have h'' := congrArg Prod.snd (List.mem_singleton.mp h')
          simp [autoIdField] at h''
    · rw [if_neg hcond] at hm
      exact hstr fn str hm
  unfold initTable at h
  cases hf : initFields types sn tn (withAutoId (withBackrefs t sn tn)).fields
      (withAutoId (withBackrefs t sn tn)).primary with
  | error e => rw [hf] at h; exact Except.noConfusion h
  | ok fp =>
      obtain ⟨fs, p⟩ := fp
      rw [hf] at h
      have h2 : (Except.ok { withAutoId (withBackrefs t sn tn) with
            fields := fs, primary := p } : Except String SchemaTable) = .ok t' := h
      cases h2
      have hfst := initFields_fst types sn tn _ _ _ _ hf
      have hidem := initFields_idem types sn tn _ _ _ _ hf ha hb hstr2
      have hinv : (fs.map Prod.fst).contains "id" = true ∨ p.isSome = true := by
        by_cases hcond : (((withBackrefs t sn tn).fields.map Prod.fst).contains "id" = false ∧
            (withBackrefs t sn tn).primary = none)
        · left
          have ht2 : (withAutoId (withBackrefs t sn tn)).fields =
              (withBackrefs t sn tn).fields ++ [("id", autoIdField)] := by
            unfold withAutoId
            rw [if_pos hcond]
          rw [hfst, ht2, List.map_append]
          simp
        · cases not_and_or.mp hcond with
          | inl hc =>
              left
              have ht2f : (withAutoId (withBackrefs t sn tn)).fields =
                  (withBackrefs t sn tn).fields := by
                unfold withAutoId
                rw [if_neg hcond]
              rw [hfst, ht2f]
              cases hb2 : ((withBackrefs t sn tn).fields.map Prod.fst).contains "id" with
              | false => exact absurd hb2 hc
              | true => rfl
          | inr hc =>
              right
              cases hp0 : (withBackrefs t sn tn).primary with
              | none => exact absurd hp0 hc
              | some x =>
                  rw [show (withAutoId (withBackrefs t sn tn)).primary = some x from
                    (withAutoId_primary _).trans hp0] at hf
                  rw [initFields_primary_some types sn tn _ x p fs hf]
                  rfl
      have hss : ({ withAutoId (withBackrefs t sn tn) with
          fields := fs, primary := p } : SchemaTable).sschema = some sn := by
        show (withAutoId (withBackrefs t sn tn)).sschema = some sn
        rw [withAutoId_sschema]
        rfl
      have hsn : ({ withAutoId (withBackrefs t sn tn) with
          fields := fs, primary := p } : SchemaTable).sname = some tn := by
        show (withAutoId (withBackrefs t sn tn)).sname = some tn
        rw [withAutoId_sname]
        rfl
      have hninv : ¬ ((({ withAutoId (withBackrefs t sn tn) with
          fields := fs, primary := p } : SchemaTable).fields.map Prod.fst).contains "id" = false ∧
          ({ withAutoId (withBackrefs t sn tn) with
            fields := fs, primary := p } : SchemaTable).primary = none) := by
        intro hcon
        cases hinv with
        | inl hl =>
            have : (fs.map Prod.fst).contains "id" = false := hcon.1
            rw [hl] at this
            cases this
        | inr hr =>
            have : p = none := hcon.2
            rw [this] at hr
            cases hr
      unfold initTable
      rw [withBackrefs_self _ sn tn hss hsn, withAutoId_self _ hninv]
      have hrun : initFields types sn tn
          ({ withAutoId (withBackrefs t sn tn) with
            fields := fs, primary := p } : SchemaTable).fields
          ({ withAutoId (withBackrefs t sn tn) with
            fields := fs, primary := p } : SchemaTable).primary =
          .ok (fs, p) := hidem p
      rw [hrun]

theorem initTables_idem (types : List (String × String)) (sn : String) :
    ∀ (tables ts : List (String × SchemaTable)),
      initTables types sn tables = .ok ts →
      (∀ kv ∈ types, jsGet types kv.2 = none) →
      jsGet types "INTEGER AUTO_INCREMENT" = none →
      (∀ tn t, (tn, t) ∈ tables → ∀ fn str, (fn, FieldSpec.str str) ∈ t.fields →
        resolveAlias types (parseFieldString str).type ≠ "::id") →
      initTables types sn ts = .ok ts := by
  intro tables
  induction tables with
  | nil =>
      intro ts h _ _ _
      have h2 : (Except.ok ([] : List (String × SchemaTable)) :
          Except String (List (String × SchemaTable))) = .ok ts := h
      cases h2
      rfl
  | cons tt rest ih =>
      intro ts h ha hb hstr
      obtain ⟨tn, t⟩ := tt
      unfold initTables at h
      cases h1 : initTable types sn tn t with
      | error e => rw [h1] at h; exact Except.noConfusion h
      | ok t' =>
          rw [h1] at h
          have h4 : (match initTables types sn rest with
              | Except.error e => (Except.error e :
                  Except String (List (String × SchemaTable)))
              | Except.ok rest' => Except.ok ((tn, t') :: rest')) = .ok ts := h
          cases h2 : initTables types sn rest with
          | error e => rw [h2] at h4; exact Except.noConfusion h4
          | ok rest' =>
              rw [h2] at h4
              have h3 : (Except.ok ((tn, t') :: rest') :
                  Except String (List (String × SchemaTable))) = .ok ts := h4
              cases h3
              have ht2 := initTable_idem types sn tn t t' h1 ha hb
                (fun fn str hm => hstr tn t (List.mem_cons_self _ _) fn str hm)
              have hr2 := ih rest' h2 ha hb
                (fun tn' t'' hm => hstr tn' t'' (List.mem_cons_of_mem _ hm))
              unfold initTables
              rw [ht2]
              have hgoal : (match initTables types sn rest' with
                  | Except.error e => (Except.error e :
                      Except String (List (String × SchemaTable)))
                  | Except.ok rest'' => Except.ok ((tn, t') :: rest'')) =
                  Except.ok ((tn, t') :: rest') := by
                rw [hr2]
              exact hgoal

/-- C7 (amended): schema normalization is idempotent for every schema in
which (a) no `$types` alias value is itself an alias key and
`'INTEGER AUTO_INCREMENT'` is not an alias key (alias resolution is a
single lookup, so an alias chain is advanced one further step by each run),
and (b) no string-notation field resolves to the `::id` builtin (such
fields are re-parsed by every run — the parsed descriptor is never written
back — and a second run then throws because `$primary` is already claimed).
Under these conditions a second `initialise_schema` run returns the
normalized schema unchanged. -/
theorem initialise_schema_idem (database : String) (s s1 : Schema)
    (h : initialise_schema database s = .ok s1)
    (ha : ∀ kv ∈ s.types, jsGet s.types kv.2 = none)
    (hb : jsGet s.types "INTEGER AUTO_INCREMENT" = none)
    (hstr : ∀ tn t, (tn, t) ∈ s.tables → ∀ fn str,
      (fn, FieldSpec.str str) ∈ t.fields →
      resolveAlias s.types (parseFieldString str).type ≠ "::id") :
    initialise_schema database s1 = .ok s1 := by
  unfold initialise_schema at h
  cases hts : initTables s.types database s.tables with
  | error e => rw [hts] at h; exact Except.noConfusion h
  | ok ts =>
      rw [hts] at h
      have h2 : (Except.ok { s with tables := ts, sname := some database } :
          Except String Schema) = .ok s1 := h
      cases h2
      have hrun := initTables_idem s.types database s.tables ts hts ha hb hstr
      unfold initialise_schema
      have hgoal : initTables s.types database ts = .ok ts := hrun
      rw [hgoal]

/-- Witness for `initialise_schema_idem`: the test schema shape — a table
with a string-notation `VARCHAR` field and an alias-typed object field —
normalizes once (gaining the injected `id` primary key) and is a fixed
point of a second run. -/
theorem initialise_schema_idem_witness :
    initialise_schema "db"
        (Schema.mk
          [("roles",
            ⟨[("name", .str "varchar(64), unique"),
              ("rights", .desc ⟨"string", false, false, false, none, none,
                none, none, none⟩)], none, none, none⟩)]
          [("string", "varchar(64)")] none) =
      .ok (Schema.mk
        [("roles",
          ⟨[("name", .str "varchar(64), unique"),
            ("rights", .desc ⟨"varchar(64)", false, false, false, none, none,
              some "rights", some "roles", some "db"⟩),
            ("id", .desc ⟨"INTEGER AUTO_INCREMENT", false, false, false, none, none,
              some "id", some "roles", some "db"⟩)],
           some "id", some "roles", some "db"⟩)]
        [("string", "varchar(64)")] (some "db")) ∧
    initialise_schema "db"
        (Schema.mk
          [("roles",
            ⟨[("name", .str "varchar(64), unique"),
              ("rights", .desc ⟨"varchar(64)", false, false, false, none, none,
                some "rights", some "roles", some "db"⟩),
              ("id", .desc ⟨"INTEGER AUTO_INCREMENT", false, false, false, none, none,
                some "id", some "roles", some "db"⟩)],
             some "id", some "roles", some "db"⟩)]
          [("string", "varchar(64)")] (some "db")) =
      .ok (Schema.mk
        [("roles",
          ⟨[("name", .str "varchar(64), unique"),
            ("rights", .desc ⟨"varchar(64)", false, false, false, none, none,
              some "rights", some "roles", some "db"⟩),
            ("id", .desc ⟨"INTEGER AUTO_INCREMENT", false, false, false, none, none,
              some "id", some "roles", some "db"⟩)],
           some "id", some "roles", some "db"⟩)]
        [("string", "varchar(64)")] (some "db")) := by
  constructor
  · rfl
  · exact initialise_schema_idem "db"
      (Schema.mk
        [("roles",
          ⟨[("name", .str "varchar(64), unique"),
            ("rights", .desc ⟨"string", false, false, false, none, none,
              none, none, none⟩)], none, none, none⟩)]
        [("string", "varchar(64)")] none)
      _ (by rfl)
      (by decide)
      (by decide)
      (by
        intro tn t hm fn str hm2
        simp only [List.mem_singleton] at hm
        cases hm
        simp only [List.mem_cons, List.mem_singleton] at hm2
        rcases hm2 with h3 | h3 | h3
        · cases h3
          decide
        · injection h3 with h4 h5
          exact FieldSpec.noConfusion h5
        · exact absurd h3 (List.not_mem_nil _))

/-!
## Column definitions and foreign-key checks
(src/autogen.js, column_definition, lines 147-207)

`column_definition` runs during `create_tables`, right after
`initialise_schema` in the ORM constructor's initialization pipeline; this
is where a field's foreign-key reference is resolved and checked.
`orm.error` logs and throws at the default log level (logging.js lines
84-91, `logLevel` defaults to 2 ≥ 1), so `return orm.error(…)` aborts the
pipeline: it is modelled as `Except.error`.  A `references` property given
as a string is dereferenced as `orm.schema[references].id` with no
existence check; a missing table or a missing `id` field there crashes with
a `TypeError` (also fatal), modelled as an error too.  A `references`
property that is already a field object is a pointer into the schema — by
construction it is a field that exists; it is modelled as an already
resolved `FieldRef`. -/

/-- What `column_definition` reads per field: `$name`, `$table.$name`,
`type`, `nullable`, `index`, `unique`, `default`, `references`,
`onUpdate`, `onDelete`.  `index`/`unique` may be absent, boolean or a
string; `references` may be absent, a table-name string, or a field
pointer. -/
structure CdField where
  name : String
  tableName : String
  type : String
  nullable : Bool
  index : Option Scalar
  unique : Option Scalar
  defaultValue : Option Scalar
  references : Option (Sum String FieldRef)
  onUpdate : Option String
  onDelete : Option String
deriving DecidableEq

/-- `_(x).isString()` on a possibly-undefined value. -/
def optIsString : Option Scalar → Bool
  | some (.str _) => true
  | _ => false

/-- JavaScript truthiness of a possibly-undefined value. -/
def optTruthy : Option Scalar → Bool
  | some s => s.truthy
  | none => false

/-- `type.charAt(0) === ':'`. -/
def startsWithColon (s : String) : Bool :=
  match s.data with
  | c :: _ => c == ':'
  | [] => false

/-- The referenced table name parsed from a `:table[:key]` type:
`refs = type.split(':'); refs.shift(); ref = refs.shift()` (an absent
entry behaves like an empty name, which no table has). -/
def fkRef (ty : String) : String :=
  ((jsSplit ':' ty).tail).headD ""

/-- The referenced key parsed from a `:table[:key]` type:
`key = refs.shift() || 'id'`. -/
def fkKey (ty : String) : String :=
  match ((jsSplit ':' ty).tail).tail.head? with
  | none => "id"
  | some k => if k = "" then "id" else k

/-- `mysql.escapeId(field.$table.$name) + '.' + mysql.escapeId(field.$name)`. -/
def cdFullName (f : CdField) : String :=
  escapeId f.tableName ++ "." ++ escapeId f.name

/-- The field-existence check, index naming, duplicate-reference check and
reference resolution of the automatic-foreign-key block (autogen.js lines
158-167), given the fields of the referenced table. -/
def autoFkResolve (f : CdField) (fieldNames : List String) :
    Except String CdField :=
  if fieldNames.contains (fkKey f.type) = false then
    .error ("Cannot create foreign key: field " ++ escapeId (fkRef f.type) ++
      "." ++ escapeId (fkKey f.type) ++ " not found for field " ++ cdFullName f)
  else if f.references.isSome then
    .error ("Cannot define foreign key: a foreign key is already specified for field " ++
      cdFullName f)
  else
    .ok { f with
            type := "INTEGER"
            index := if optIsString f.index then f.index
                     else some (.str (f.name ++ "_idx_" ++ fkRef f.type ++
                       "_" ++ fkKey f.type))
            references := some (.inr ⟨fkRef f.type, fkKey f.type⟩) }

/-- The automatic-foreign-key block (autogen.js lines 150-168): for a
`:`-prefixed type, parse table and key, check that the table exists, and
resolve the reference through `autoFkResolve`. -/
def autoForeignKey (schemaTables : List (String × List String)) (f : CdField) :
    Except String CdField :=
  if startsWithColon f.type then
    match jsGet schemaTables (fkRef f.type) with
    | none =>
        .error ("Cannot create foreign key: table " ++ escapeId (fkRef f.type) ++
          " not found for field " ++ cdFullName f)
    | some fieldNames => autoFkResolve f fieldNames
  else .ok f

/-- Rendering of a name-valued option (only reached when the option is a
string). -/
def optStr : Option Scalar → String
  | some (.str s) => s
  | _ => ""

/-- The index block (autogen.js lines 169-176). -/
def indexClause (f : CdField) : CdField × List String :=
  if optTruthy f.index then
    ({ f with index := if optIsString f.index then f.index
                       else some (.str (f.name ++ "_idx")) },
     ["INDEX " ++ escapeId (optStr (if optIsString f.index then f.index
                                    else some (.str (f.name ++ "_idx")))) ++
      " (" ++ escapeId f.name ++ ")"])
  else (f, [])

/-- The unique-key block (autogen.js lines 177-184). -/
def uniqueClause (f : CdField) : CdField × List String :=
  if optTruthy f.unique then
    ({ f with unique := if optIsString f.unique then f.unique
                        else some (.str (f.name ++ "_uniq")) },
     ["CONSTRAINT " ++ escapeId (optStr (if optIsString f.unique then f.unique
                                         else some (.str (f.name ++ "_uniq")))) ++
      " UNIQUE KEY (" ++ escapeId f.name ++ ")"])
  else (f, [])

/-- `reference_option` (autogen.js lines 138-144): upper-cased; an
unrecognised value only logs a warning. -/
def reference_option (v : String) : String :=
  String.mk (v.data.map Char.toUpper)

/-- The FOREIGN KEY constraint line with its optional ON UPDATE / ON
DELETE reference options (autogen.js lines 191-196). -/
def fkConstraintLine (f : CdField) (fr : FieldRef) : String :=
  jsJoin " " (["CONSTRAINT " ++
      escapeId (f.name ++ "_fk_" ++ fr.tableName ++ "_" ++ fr.fieldName) ++
      " FOREIGN KEY (" ++ escapeId f.name ++ ") REFERENCES " ++
      escapeId fr.tableName ++ " (" ++ escapeId fr.fieldName ++ ")"] ++
    (match f.onUpdate with
     | some v => ["ON UPDATE " ++ reference_option v]
     | none => []) ++
    (match f.onDelete with
     | some v => ["ON DELETE " ++ reference_option v]
     | none => []))

/-- The string-`references` dereference `orm.schema[references].id`
(autogen.js lines 187-189): no existence check is made, so a missing table
or a table without an accessible `id` field crashes with a TypeError
(fatal). -/
def refStringResolve (schemaTables : List (String × List String)) (f : CdField)
    (tn : String) : Except String (CdField × List String) :=
  match jsGet schemaTables tn with
  | none => .error "TypeError: Cannot read property id of undefined"
  | some fieldNames =>
      if fieldNames.contains "id" then
        .ok ({ f with references := some (.inr ⟨tn, "id"⟩) },
             [fkConstraintLine f ⟨tn, "id"⟩])
      else .error "TypeError: Cannot read property $table of undefined"

/-- The foreign-key constraint block (autogen.js lines 185-197): a string
`references` is dereferenced as `orm.schema[references].id`; the resolved
reference is written back and the constraint line emitted. -/
def referencesClause (schemaTables : List (String × List String)) (f : CdField) :
    Except String (CdField × List String) :=
  match f.references with
  | none => .ok (f, [])
  | some (.inl tn) => refStringResolve schemaTables f tn
  | some (.inr fr) =>
      .ok ({ f with references := some (.inr fr) }, [fkConstraintLine f fr])

/-- The column name/type/NOT NULL/DEFAULT line (autogen.js lines 198-205). -/
def colLine (f : CdField) : String :=
  jsJoin " " ([escapeId f.name, f.type] ++
    (if f.nullable then [] else ["NOT NULL"]) ++
    (match f.defaultValue with
     | some dv => if dv.truthy then ["DEFAULT " ++ escape dv] else []
     | none => []))

/-- `column_definition(orm, field)` (autogen.js lines 147-207). -/
def column_definition (schemaTables : List (String × List String)) (f0 : CdField) :
    Except String (CdField × String) :=
  match autoForeignKey schemaTables f0 with
  | .error e => .error e
  | .ok f1 =>
      match indexClause f1 with
      | (f2, l1) =>
          match uniqueClause f2 with
          | (f3, l2) =>
              match referencesClause schemaTables f3 with
              | .error e => .error e
              | .ok (f4, l3) =>
                  .ok (f4, jsJoin ",\n\t" (colLine f4 :: (l1 ++ l2 ++ l3)))

/-- The column loop of `create_table` (autogen.js lines 122-127): every
field's column definition, aborting on the first error. -/
def columns_definitions (schemaTables : List (String × List String)) :
    List CdField → Except String (List (CdField × String))
  | [] => .ok []
  | f :: rest =>
      match column_definition schemaTables f with
      | .error e => .error e
      | .ok out =>
          match columns_definitions schemaTables rest with
          | .error e => .error e
          | .ok outs => .ok (out :: outs)

theorem autoForeignKey_ok_colon (st : List (String × List String)) (f f1 : CdField)
    (h : startsWithColon f.type = true)
    (hok : autoForeignKey st f = .ok f1) :
    ∃ fieldNames, jsGet st (fkRef f.type) = some fieldNames ∧
      fieldNames.contains (fkKey f.type) = true ∧
      f.references = none ∧
      f1.references = some (.inr ⟨fkRef f.type, fkKey f.type⟩) := by
  unfold autoForeignKey at hok
  rw [if_pos h] at hok
  cases hj : jsGet st (fkRef f.type) with
  | none => rw [hj] at hok; exact Except.noConfusion hok
  | some fieldNames =>
      rw [hj] at hok
      have hok2 : autoFkResolve f fieldNames = .ok f1 := hok
      unfold autoFkResolve at hok2
      by_cases hc : fieldNames.contains (fkKey f.type) = false
      · rw [if_pos hc] at hok2
        exact Except.noConfusion hok2
      · rw [if_neg hc] at hok2
        by_cases hs : f.references.isSome = true
        · rw [if_pos hs] at hok2
          exact Except.noConfusion hok2
        · rw [if_neg hs] at hok2
          have h2 : (Except.ok { f with
              type := "INTEGER"
              index := if optIsString f.index then f.index
                       else some (.str (f.name ++ "_idx_" ++ fkRef f.type ++
                         "_" ++ fkKey f.type))
              references := some (.inr ⟨fkRef f.type, fkKey f.type⟩) } :
              Except String CdField) = .ok f1 := hok2
          cases h2
          refine ⟨fieldNames, rfl, ?_, ?_, rfl⟩
          · cases hb2 : fieldNames.contains (fkKey f.type) with
            | false => exact absurd hb2 hc
            | true => rfl
          · cases hrefs : f.references with
            | none => rfl
            | some r => rw [hrefs] at hs; exact absurd rfl hs

theorem autoForeignKey_ok_nocolon (st : List (String × List String)) (f f1 : CdField)
    (h : startsWithColon f.type = false)
    (hok : autoForeignKey st f = .ok f1) : f1 = f := by
  unfold autoForeignKey at hok
  rw [if_neg (by rw [h]; exact Bool.false_ne_true)] at hok
  have h2 : (Except.ok f : Except String CdField) = .ok f1 := hok
  cases h2
  rfl

theorem autoForeignKey_err_no_table (st : List (String × List String)) (f : CdField)
    (h : startsWithColon f.type = true)
    (hj : jsGet st (fkRef f.type) = none) :
    ∃ e, autoForeignKey st f = .error e := by
  refine ⟨"Cannot create foreign key: table " ++ escapeId (fkRef f.type) ++
    " not found for field " ++ cdFullName f, ?_⟩
  unfold autoForeignKey
  rw [if_pos h, hj]

theorem autoForeignKey_err_no_field (st : List (String × List String)) (f : CdField)
    (h : startsWithColon f.type = true) (fieldNames : List String)
    (hj : jsGet st (fkRef f.type) = some fieldNames)
    (hc : fieldNames.contains (fkKey f.type) = false) :
    ∃ e, autoForeignKey st f = .error e := by
  refine ⟨"Cannot create foreign key: field " ++ escapeId (fkRef f.type) ++
    "." ++ escapeId (fkKey f.type) ++ " not found for field " ++ cdFullName f, ?_⟩
  unfold autoForeignKey
  rw [if_pos h, hj]
  show autoFkResolve f fieldNames = .error _
  unfold autoFkResolve
  rw [if_pos hc]

theorem indexClause_references (f : CdField) :
    (indexClause f).1.references = f.references := by
  unfold indexClause
  split <;> rfl

theorem uniqueClause_references (f : CdField) :
    (uniqueClause f).1.references = f.references := by
  unfold uniqueClause
  split <;> rfl

theorem referencesClause_ok_refs (st : List (String × List String))
    (f3 f4 : CdField) (l : List String)
    (hok : referencesClause st f3 = .ok (f4, l)) :
    (f3.references = none ∧ f4.references = none) ∨
    (∃ tn, f3.references = some (.inl tn) ∧
      f4.references = some (.inr ⟨tn, "id"⟩) ∧
      ∃ fieldNames, jsGet st tn = some fieldNames ∧
        fieldNames.contains "id" = true) ∨
    (∃ fr, f3.references = some (.inr fr) ∧ f4.references = some (.inr fr)) := by
  unfold referencesClause at hok
  cases hrefs : f3.references with
  | none =>
      rw [hrefs] at hok
      have h2 : (Except.ok (f3, ([] : List String)) :
          Except String (CdField × List String)) = .ok (f4, l) := hok
      cases h2
      exact Or.inl ⟨rfl, hrefs⟩
  | some r =>
      rw [hrefs] at hok
      cases r with
      | inl tn =>
          have hok2 : refStringResolve st f3 tn = .ok (f4, l) := hok
          unfold refStringResolve at hok2
          cases hj : jsGet st tn with
          | none => rw [hj] at hok2; exact Except.noConfusion hok2
          | some fieldNames =>
              rw [hj] at hok2
              have hok3 : (if fieldNames.contains "id" = true then
                  (Except.ok ({ f3 with references := some (.inr ⟨tn, "id"⟩) },
                    [fkConstraintLine f3 ⟨tn, "id"⟩]) :
                    Except String (CdField × List String))
                  else .error "TypeError: Cannot read property $table of undefined") =
                  .ok (f4, l) := hok2
              by_cases hc : fieldNames.contains "id" = true
              · rw [if_pos hc] at hok3
                have h2 : (Except.ok ({ f3 with references := some (.inr ⟨tn, "id"⟩) },
                    [fkConstraintLine f3 ⟨tn, "id"⟩]) :
                    Except String (CdField × List String)) = .ok (f4, l) := hok3
                cases h2
                exact Or.inr (Or.inl ⟨tn, rfl, rfl, fieldNames, hj, hc⟩)
              · rw [if_neg hc] at hok3
                exact Except.noConfusion hok3
      | inr fr =>
          have h2 : (Except.ok ({ f3 with references := some (.inr fr) },
              [fkConstraintLine f3 fr]) :
              Except String (CdField × List String)) = .ok (f4, l) := hok
          cases h2
          exact Or.inr (Or.inr ⟨fr, rfl, rfl⟩)

theorem referencesClause_err_inl (st : List (String × List String))
    (f3 : CdField) (tn : String)
    (hrefs : f3.references = some (.inl tn))
    (hbad : jsGet st tn = none ∨
      ∃ fieldNames, jsGet st tn = some fieldNames ∧
        fieldNames.contains "id" = false) :
    ∃ e, referencesClause st f3 = .error e := by
  cases hbad with
  | inl hj =>
      refine ⟨"TypeError: Cannot read property id of undefined", ?_⟩
      unfold referencesClause
      rw [hrefs]
      show refStringResolve st f3 tn = _
      unfold refStringResolve
      rw [hj]
  | inr hj =>
      obtain ⟨fieldNames, hj2, hc⟩ := hj
      refine ⟨"TypeError: Cannot read property $table of undefined", ?_⟩
      unfold referencesClause
      rw [hrefs]
      show refStringResolve st f3 tn = _
      unfold refStringResolve
      rw [hj2]
      have hred : (if fieldNames.contains "id" = true then
          (Except.ok ({ f3 with references := some (.inr ⟨tn, "id"⟩) },
            [fkConstraintLine f3 ⟨tn, "id"⟩]) :
            Except String (CdField × List String))
          else .error "TypeError: Cannot read property $table of undefined") =
          .error "TypeError: Cannot read property $table of undefined" := by
        rw [if_neg (by rw [hc]; exact Bool.false_ne_true)]
      exact hred

theorem column_definition_ok_decomp (st : List (String × List String))
    (f : CdField) (out : CdField) (sql : String)
    (h : column_definition st f = .ok (out, sql)) :
    ∃ f1 l3, autoForeignKey st f = .ok f1 ∧
      referencesClause st (uniqueClause (indexClause f1).1).1 = .ok (out, l3) := by
  unfold column_definition at h
  cases ha : autoForeignKey st f with
  | error e => rw [ha] at h; exact Except.noConfusion h
  | ok f1 =>
      rw [ha] at h
      have h2 : (match referencesClause st (uniqueClause (indexClause f1).1).1 with
          | Except.error e => (Except.error e : Except String (CdField × String))
          | Except.ok (f4, l3) =>
              Except.ok (f4, jsJoin ",\n\t" (colLine f4 ::
                ((indexClause f1).2 ++ (uniqueClause (indexClause f1).1).2 ++ l3)))) =
          .ok (out, sql) := h
      cases hr : referencesClause st (uniqueClause (indexClause f1).1).1 with
      | error e => rw [hr] at h2; exact Except.noConfusion h2
      | ok fl =>
          obtain ⟨f4, l3⟩ := fl
          rw [hr] at h2
          have h3 : (Except.ok (f4, jsJoin ",\n\t" (colLine f4 ::
              ((indexClause f1).2 ++ (uniqueClause (indexClause f1).1).2 ++ l3))) :
              Except String (CdField × String)) = .ok (out, sql) := h2
          cases h3
          exact ⟨f1, l3, rfl, hr⟩

theorem column_definition_err_auto (st : List (String × List String))
    (f : CdField) (e : String)
    (h : autoForeignKey st f = .error e) : column_definition st f = .error e := by
  unfold column_definition
  rw [h]

theorem column_definition_err_refs (st : List (String × List String))
    (f f1 : CdField) (e : String)
    (ha : autoForeignKey st f = .ok f1)
    (hr : referencesClause st (uniqueClause (indexClause f1).1).1 = .error e) :
    column_definition st f = .error e := by
  unfold column_definition
  rw [ha]
  have h2 : (match referencesClause st (uniqueClause (indexClause f1).1).1 with
      | Except.error e => (Except.error e : Except String (CdField × String))
      | Except.ok (f4, l3) =>
          Except.ok (f4, jsJoin ",\n\t" (colLine f4 ::
            ((indexClause f1).2 ++ (uniqueClause (indexClause f1).1).2 ++ l3)))) =
      .error e := by
    rw [hr]
  exact h2

/-- C8: the foreign-key reference checks of the normalization pipeline
(`initialise_schema` followed by `create_tables` / `column_definition` in
the ORM constructor).  If `column_definition` succeeds, every reference it
resolves from a declaratively named foreign key (a `:table[:key]` type or a
table-name string in `references`) points to an existing table and an
existing field of that table; a `:`-notation reference to a missing table
or missing field aborts with an `orm.error` throw, and a string
`references` naming a missing table (or a table without `id`) aborts with
a `TypeError` — normalization never completes with such a dangling
reference. -/
theorem column_definition_fk_checked (st : List (String × List String))
    (f : CdField) :
    (∀ out sql, column_definition st f = .ok (out, sql) →
      (f.references = none ∨ ∃ tn, f.references = some (.inl tn)) →
      ∀ fr, out.references = some (.inr fr) →
        ∃ fieldNames, jsGet st fr.tableName = some fieldNames ∧
          fieldNames.contains fr.fieldName = true) ∧
    (startsWithColon f.type = true →
      jsGet st (fkRef f.type) = none →
      ∃ e, column_definition st f = .error e) ∧
    (startsWithColon f.type = true →
      ∀ fieldNames, jsGet st (fkRef f.type) = some fieldNames →
      fieldNames.contains (fkKey f.type) = false →
      ∃ e, column_definition st f = .error e) ∧
    (startsWithColon f.type = false →
      ∀ tn, f.references = some (.inl tn) →
      (jsGet st tn = none ∨
        ∃ fieldNames, jsGet st tn = some fieldNames ∧
          fieldNames.contains "id" = false) →
      ∃ e, column_definition st f = .error e) := by
  refine ⟨?_, ?_, ?_, ?_⟩
  · intro out sql h hgiven fr hout
    obtain ⟨f1, l3, ha, hr⟩ := column_definition_ok_decomp st f out sql h
    have hpres : (uniqueClause (indexClause f1).1).1.references = f1.references := by
      rw [uniqueClause_references, indexClause_references]
    cases hcolon : startsWithColon f.type with
    | true =>
        obtain ⟨fieldNames, hj, hc, _, hf1⟩ :=
          autoForeignKey_ok_colon st f f1 hcolon ha
        rcases referencesClause_ok_refs st _ out l3 hr with
          ⟨h3, h4⟩ | ⟨tn, h3, h4, fieldNames', hj', hc'⟩ | ⟨fr', h3, h4⟩
        · rw [hout] at h4
          exact Option.noConfusion h4
        · rw [hpres, hf1] at h3
          cases h3
        · rw [hpres, hf1] at h3
          simp only [Option.some.injEq, Sum.inr.injEq] at h3
          rw [hout] at h4
          simp only [Option.some.injEq, Sum.inr.injEq] at h4
          rw [h4, ← h3]
          exact ⟨fieldNames, hj, hc⟩
    | false =>
        have hf1 : f1 = f := autoForeignKey_ok_nocolon st f f1 hcolon ha
        subst hf1
        rcases referencesClause_ok_refs st _ out l3 hr with
          ⟨h3, h4⟩ | ⟨tn, h3, h4, fieldNames', hj', hc'⟩ | ⟨fr', h3, h4⟩
        · rw [hout] at h4
          exact Option.noConfusion h4
        · rw [hout] at h4
          simp only [Option.some.injEq, Sum.inr.injEq] at h4
          rw [h4]
          exact ⟨fieldNames', hj', hc'⟩
        · rw [hpres] at h3
          cases hgiven with
          | inl hnone => rw [hnone] at h3; exact Option.noConfusion h3
          | inr hinl =>
              obtain ⟨tn, hinl⟩ := hinl
              rw [hinl] at h3
              have h6 := h3
              injection h6 with h7
              exact Sum.noConfusion h7
  · intro hcolon hj
    obtain ⟨e, he⟩ := autoForeignKey_err_no_table st f hcolon hj
    exact ⟨e, column_definition_err_auto st f e he⟩
  · intro hcolon fieldNames hj hc
    obtain ⟨e, he⟩ := autoForeignKey_err_no_field st f hcolon fieldNames hj hc
    exact ⟨e, column_definition_err_auto st f e he⟩
  · intro hcolon tn hinl hbad
    cases ha : autoForeignKey st f with
    | error e => exact ⟨e, column_definition_err_auto st f e ha⟩
    | ok f1 =>
        have hf1 : f1 = f := autoForeignKey_ok_nocolon st f f1 hcolon ha
        have hpres : (uniqueClause (indexClause f1).1).1.references = f.references := by
          rw [uniqueClause_references, indexClause_references, hf1]
        obtain ⟨e, he⟩ := referencesClause_err_inl st _ tn
          (by rw [hpres]; exact hinl) hbad
        exact ⟨e, column_definition_err_refs st f f1 e ha he⟩

/-- Witness for `column_definition_fk_checked`: against a schema with a
`countries(id, name)` table, a `:countries` field resolves to the existing
`countries.id`; a `:missing` field and a `:countries:iso` field fail with
foreign-key errors; a string reference to a missing table fails fatally. -/
theorem column_definition_fk_checked_witness :
    (∃ fieldNames,
      jsGet [("countries", ["id", "name"])] "countries" = some fieldNames ∧
      fieldNames.contains "id" = true) ∧
    (∃ e, column_definition [("countries", ["id", "name"])]
      ⟨"country", "users", ":missing", false, none, none, none, none, none, none⟩ =
        .error e) ∧
    (∃ e, column_definition [("countries", ["id", "name"])]
      ⟨"country", "users", ":countries:iso", false, none, none, none, none, none, none⟩ =
        .error e) ∧
    (∃ e, column_definition [("countries", ["id", "name"])]
      ⟨"country", "users", "INTEGER", false, none, none, none,
        some (.inl "missing"), none, none⟩ = .error e) := by
  refine ⟨?_, ?_, ?_, ?_⟩
  · have h := (column_definition_fk_checked [("countries", ["id", "name"])]
      ⟨"country", "users", ":countries", false, none, none, none, none, none, none⟩).1
    exact h _ _ rfl (Or.inl rfl) ⟨"countries", "id"⟩ rfl
  · exact (column_definition_fk_checked [("countries", ["id", "name"])]
      ⟨"country", "users", ":missing", false, none, none, none, none, none, none⟩).2.1
      rfl rfl
  · exact (column_definition_fk_checked [("countries", ["id", "name"])]
      ⟨"country", "users", ":countries:iso", false, none, none, none, none, none, none⟩).2.2.1
      rfl ["id", "name"] rfl rfl
  · exact (column_definition_fk_checked [("countries", ["id", "name"])]
      ⟨"country", "users", "INTEGER", false, none, none, none,
        some (.inl "missing"), none, none⟩).2.2.2
      rfl "missing" rfl (Or.inl rfl)

end MysqlOrm
